import Mathlib

/-!
Shallow embedding of the Pathfinding repository's path-planning engine
(grid search family, JPS jump scanning, Theta* line of sight, navmesh
builder and search family, funnel smoothing) together with theorems
about the engine's behaviour.

Modelling conventions:
* A grid cell is represented by its `isObstacle` flag, so a grid is a
  list of rows of booleans.  Positions are pairs of integers, mirroring
  the JavaScript `{row, col}` objects; the string keys `"r,c"` used by
  the source for map membership are in bijection with positions, so maps
  are keyed by positions directly.
* JavaScript `Map`s are modelled as association lists with
  insert-or-replace semantics, JavaScript `Set`s as duplicate-free lists.
* The `PriorityQueue` of the source pushes an element and then re-sorts
  with a stable sort keyed on the priority; on an already sorted list
  this is the same as inserting the new element in front of the first
  strictly greater priority, which is how `pqEnqueue` is written.
* Floating point numbers are idealised as real numbers; the integer-only
  algorithms (A*, Dijkstra, Greedy Best-First) use `Nat` costs because
  every value they compute is a small non-negative integer, on which
  IEEE double arithmetic is exact.
* The `while` loops of the source are written as fuel-indexed recursion;
  running out of fuel yields `none`, and theorems about arbitrary runs
  quantify over the fuel.  The `computationTime` metric (a wall-clock
  reading) is omitted from the embedded metrics records.
-/

namespace Pathfinding

/-- Grid position, mirroring the JavaScript `{row, col}` cell objects. -/
structure Pos where
  row : Int
  col : Int
deriving DecidableEq

/-- A grid is a list of rows; a cell is represented by its `isObstacle` flag. -/
abbrev Grid := List (List Bool)

/-- Read `grid[r][c].isObstacle` with an explicit value `oob` for reads that
fall outside the stored grid (the source would crash on such reads where it
does not guard them; the guarded call sites always pass in-bounds indices). -/
def obstacleAt (grid : Grid) (r c : Int) (oob : Bool) : Bool :=
  if 0 ≤ r ∧ r.toNat < grid.length then
    let rowList := grid.getD r.toNat []
    if 0 ≤ c ∧ c.toNat < rowList.length then rowList.getD c.toNat false else oob
  else oob

/-- Obstacle test used by the guarded call sites of the source. -/
def isObstacle (grid : Grid) (r c : Int) : Bool :=
  obstacleAt grid r c false

/-- Bounds test `0 <= row < rows && 0 <= col < cols` as in the source. -/
def inBounds (rows cols : Int) (p : Pos) : Prop :=
  0 ≤ p.row ∧ p.row < rows ∧ 0 ≤ p.col ∧ p.col < cols

instance (rows cols : Int) (p : Pos) : Decidable (inBounds rows cols p) := by
  unfold inBounds; infer_instance

/-- Manhattan distance heuristic (`heuristic` in the source).  All inputs are
integer grid cells, so the value is a natural number. -/
def heuristic (a b : Pos) : Nat :=
  (a.row - b.row).natAbs + (a.col - b.col).natAbs

/-- Direction offsets for `getNeighbors`: four cardinal moves, plus the four
diagonal moves when `allowDiagonal` is set (used by Theta*). -/
def neighborDirs (allowDiagonal : Bool) : List Pos :=
  [⟨-1, 0⟩, ⟨1, 0⟩, ⟨0, -1⟩, ⟨0, 1⟩] ++
    (if allowDiagonal then [⟨-1, -1⟩, ⟨-1, 1⟩, ⟨1, -1⟩, ⟨1, 1⟩] else [])

/-- `getNeighbors` from the source: candidate cells one step away that are
inside the grid and not obstacles. -/
def getNeighbors (cell : Pos) (grid : Grid) (rows cols : Int)
    (allowDiagonal : Bool) : List Pos :=
  (neighborDirs allowDiagonal).filterMap fun d =>
    let nr := cell.row + d.row
    let nc := cell.col + d.col
    if 0 ≤ nr ∧ nr < rows ∧ 0 ≤ nc ∧ nc < cols ∧ isObstacle grid nr nc = false then
      some ⟨nr, nc⟩
    else none

/-! Association lists modelling JavaScript `Map`s (`set` replaces in place or
appends, `get` returns an option, `has` tests membership). -/

/-- Map lookup. -/
def alGet {κ β : Type} [DecidableEq κ] (m : List (κ × β)) (k : κ) : Option β :=
  (m.find? (fun e => e.1 = k)).map (fun e => e.2)

/-- Map membership. -/
def alHas {κ β : Type} [DecidableEq κ] (m : List (κ × β)) (k : κ) : Bool :=
  (alGet m k).isSome

/-- Map insert-or-replace. -/
def alSet {κ β : Type} [DecidableEq κ] (m : List (κ × β)) (k : κ) (v : β) :
    List (κ × β) :=
  if alHas m k then m.map (fun e => if e.1 = k then (k, v) else e)
  else m ++ [(k, v)]

/-- Set insertion for the JavaScript `Set` of visited keys. -/
def setAdd (l : List Pos) (x : Pos) : List Pos :=
  if x ∈ l then l else l ++ [x]

/-! The `PriorityQueue` of the source: a list of element/priority pairs kept
sorted by priority, ties broken by insertion order (push followed by a stable
sort keyed on the priority). -/

/-- Enqueue: insert in front of the first strictly greater priority. -/
def pqEnqueue {α π : Type} [LinearOrder π] :
    List (α × π) → α → π → List (α × π)
  | [], x, p => [(x, p)]
  | (y, q) :: rest, x, p =>
    if p < q then (x, p) :: (y, q) :: rest else (y, q) :: pqEnqueue rest x p

/-! Metrics and results for the integer-cost grid algorithms.  The source
returns `{ path, metrics }` objects with no `exploredNodes` property; the
`exploredNodes` field below is an `Option` that those algorithms leave at
`none`, mirroring the absent JavaScript property. -/

/-- Metrics record with a natural-number path cost (`pathCost` is
`path.length - 1` for A*, Dijkstra and Greedy Best-First). -/
structure MetricsN where
  nodesExplored : Nat
  pathLength : Nat
  pathCost : Nat
deriving DecidableEq

/-- Result of A*, Dijkstra or Greedy Best-First. -/
structure GridResultN where
  path : List Pos
  exploredNodes : Option (List Pos)
  metrics : MetricsN
deriving DecidableEq

/-- `reconstructPath` from the source: follow the `cameFrom` map from the
final cell back to the start, prepending each predecessor.  The source loops
while the key is present; the embedding uses fuel (one more than the map size
suffices for the acyclic maps the algorithms build). -/
def reconstructPath (cameFrom : List (Pos × Pos)) (current : Pos) :
    Nat → List Pos
  | 0 => [current]
  | fuel + 1 =>
    match alGet cameFrom current with
    | none => [current]
    | some prev => reconstructPath cameFrom prev fuel ++ [current]

/-! A* (`astar` in the source).  Note the source marks the dequeued node
visited and increments `nodesExplored` without first checking whether the
node is already in the visited set. -/

/-- Mutable state of the A* main loop. -/
structure AStarSt where
  queue : List (Pos × Nat)
  cameFrom : List (Pos × Pos)
  gScore : List (Pos × Nat)
  fScore : List (Pos × Nat)
  visited : List Pos
  nodesExplored : Nat
deriving DecidableEq

/-- Outcome of one iteration of a search loop. -/
inductive StepRes (σ ρ : Type) : Type
  | next (s : σ) : StepRes σ ρ
  | done (r : ρ) : StepRes σ ρ
deriving DecidableEq

/-- Relaxation of one A* neighbor (the body of the `for` loop over
`getNeighbors`). -/
def astarRelax (goal : Pos) (current : Pos) (g : Nat) (s : AStarSt)
    (neighbor : Pos) : AStarSt :=
  if neighbor ∈ s.visited then s
  else
    let tentativeG := g + 1
    if alHas s.gScore neighbor = false ∨
        tentativeG < (alGet s.gScore neighbor).getD 0 then
      let f := tentativeG + heuristic neighbor goal
      { s with
        cameFrom := alSet s.cameFrom neighbor current
        gScore := alSet s.gScore neighbor tentativeG
        fScore := alSet s.fScore neighbor f
        queue := pqEnqueue s.queue neighbor f }
    else s

/-- One iteration of the A* `while` loop (queue known to be non-empty). -/
def astarStep (grid : Grid) (rows cols : Int) (goal : Pos) (s : AStarSt) :
    StepRes AStarSt GridResultN :=
  match s.queue with
  | [] => .next s
  | (current, _) :: rest =>
    if current = goal then
      let path := reconstructPath s.cameFrom current (s.cameFrom.length + 1)
      .done { path := path
              exploredNodes := none
              metrics := { nodesExplored := s.nodesExplored
                           pathLength := path.length
                           pathCost := path.length - 1 } }
    else
      let s1 : AStarSt :=
        { s with
          queue := rest
          visited := setAdd s.visited current
          nodesExplored := s.nodesExplored + 1 }
      let g := (alGet s.gScore current).getD 0
      .next ((getNeighbors current grid rows cols false).foldl
        (astarRelax goal current g) s1)

/-- The A* main loop, fuel-indexed. -/
def astarLoop (grid : Grid) (rows cols : Int) (goal : Pos) :
    Nat → AStarSt → Option GridResultN
  | 0, _ => none
  | fuel + 1, s =>
    match s.queue with
    | [] => none
    | _ :: _ =>
      match astarStep grid rows cols goal s with
      | .done r => some r
      | .next s1 => astarLoop grid rows cols goal fuel s1

/-- Initial A* state. -/
def astarInit (start goal : Pos) : AStarSt :=
  let f := heuristic start goal
  { queue := pqEnqueue [] start f
    cameFrom := []
    gScore := alSet [] start 0
    fScore := alSet [] start f
    visited := []
    nodesExplored := 0 }

/-- Default fuel: generously larger than the number of enqueues any run on a
`rows × cols` grid can perform. -/
def gridFuel (rows cols : Int) : Nat :=
  ((rows.toNat + 1) * (cols.toNat + 1) + 1) ^ 2

/-- `astar(grid, start, goal, rows, cols)` from the source. -/
def astar (grid : Grid) (start goal : Pos) (rows cols : Int) :
    Option GridResultN :=
  astarLoop grid rows cols goal (gridFuel rows cols) (astarInit start goal)

/-! Dijkstra (`dijkstra` in the source): identical loop with a plain distance
priority and a stale-dequeue check before any bookkeeping. -/

/-- Mutable state of the Dijkstra main loop. -/
structure DijkstraSt where
  queue : List (Pos × Nat)
  cameFrom : List (Pos × Pos)
  distance : List (Pos × Nat)
  visited : List Pos
  nodesExplored : Nat
deriving DecidableEq

/-- Relaxation of one Dijkstra neighbor. -/
def dijkstraRelax (current : Pos) (d : Nat) (s : DijkstraSt)
    (neighbor : Pos) : DijkstraSt :=
  if neighbor ∈ s.visited then s
  else
    let newDistance := d + 1
    if alHas s.distance neighbor = false ∨
        newDistance < (alGet s.distance neighbor).getD 0 then
      { s with
        distance := alSet s.distance neighbor newDistance
        cameFrom := alSet s.cameFrom neighbor current
        queue := pqEnqueue s.queue neighbor newDistance }
    else s

/-- One iteration of the Dijkstra `while` loop. -/
def dijkstraStep (grid : Grid) (rows cols : Int) (goal : Pos)
    (s : DijkstraSt) : StepRes DijkstraSt GridResultN :=
  match s.queue with
  | [] => .next s
  | (current, _) :: rest =>
    if current ∈ s.visited then .next { s with queue := rest }
    else
      let s1 : DijkstraSt :=
        { s with
          queue := rest
          visited := setAdd s.visited current
          nodesExplored := s.nodesExplored + 1 }
      if current = goal then
        let path := reconstructPath s.cameFrom current (s.cameFrom.length + 1)
        .done { path := path
                exploredNodes := none
                metrics := { nodesExplored := s1.nodesExplored
                             pathLength := path.length
                             pathCost := path.length - 1 } }
      else
        let d := (alGet s.distance current).getD 0
        .next ((getNeighbors current grid rows cols false).foldl
          (dijkstraRelax current d) s1)

/-- The Dijkstra main loop, fuel-indexed. -/
def dijkstraLoop (grid : Grid) (rows cols : Int) (goal : Pos) :
    Nat → DijkstraSt → Option GridResultN
  | 0, _ => none
  | fuel + 1, s =>
    match s.queue with
    | [] => none
    | _ :: _ =>
      match dijkstraStep grid rows cols goal s with
      | .done r => some r
      | .next s1 => dijkstraLoop grid rows cols goal fuel s1

/-- Initial Dijkstra state. -/
def dijkstraInit (start : Pos) : DijkstraSt :=
  { queue := pqEnqueue [] start 0
    cameFrom := []
    distance := alSet [] start 0
    visited := []
    nodesExplored := 0 }

/-- `dijkstra(grid, start, goal, rows, cols)` from the source. -/
def dijkstra (grid : Grid) (start goal : Pos) (rows cols : Int) :
    Option GridResultN :=
  dijkstraLoop grid rows cols goal (gridFuel rows cols) (dijkstraInit start)

/-! Greedy Best-First (`greedyBestFirst` in the source): priority is the
heuristic alone and a node's predecessor is never relaxed once set. -/

/-- Mutable state of the Greedy Best-First main loop. -/
structure GreedySt where
  queue : List (Pos × Nat)
  cameFrom : List (Pos × Pos)
  visited : List Pos
  nodesExplored : Nat
deriving DecidableEq

/-- Treatment of one Greedy Best-First neighbor. -/
def greedyRelax (goal : Pos) (current : Pos) (s : GreedySt)
    (neighbor : Pos) : GreedySt :=
  if neighbor ∈ s.visited then s
  else if alHas s.cameFrom neighbor then s
  else
    { s with
      cameFrom := alSet s.cameFrom neighbor current
      queue := pqEnqueue s.queue neighbor (heuristic neighbor goal) }

/-- One iteration of the Greedy Best-First `while` loop. -/
def greedyStep (grid : Grid) (rows cols : Int) (goal : Pos)
    (s : GreedySt) : StepRes GreedySt GridResultN :=
  match s.queue with
  | [] => .next s
  | (current, _) :: rest =>
    if current ∈ s.visited then .next { s with queue := rest }
    else
      let s1 : GreedySt :=
        { s with
          queue := rest
          visited := setAdd s.visited current
          nodesExplored := s.nodesExplored + 1 }
      if current = goal then
        let path := reconstructPath s.cameFrom current (s.cameFrom.length + 1)
        .done { path := path
                exploredNodes := none
                metrics := { nodesExplored := s1.nodesExplored
                             pathLength := path.length
                             pathCost := path.length - 1 } }
      else
        .next ((getNeighbors current grid rows cols false).foldl
          (greedyRelax goal current) s1)

/-- The Greedy Best-First main loop, fuel-indexed. -/
def greedyLoop (grid : Grid) (rows cols : Int) (goal : Pos) :
    Nat → GreedySt → Option GridResultN
  | 0, _ => none
  | fuel + 1, s =>
    match s.queue with
    | [] => none
    | _ :: _ =>
      match greedyStep grid rows cols goal s with
      | .done r => some r
      | .next s1 => greedyLoop grid rows cols goal fuel s1

/-- Initial Greedy Best-First state. -/
def greedyInit (start goal : Pos) : GreedySt :=
  { queue := pqEnqueue [] start (heuristic start goal)
    cameFrom := []
    visited := []
    nodesExplored := 0 }

/-- `greedyBestFirst(grid, start, goal, rows, cols)` from the source. -/
def greedyBestFirst (grid : Grid) (start goal : Pos) (rows cols : Int) :
    Option GridResultN :=
  greedyLoop grid rows cols goal (gridFuel rows cols) (greedyInit start goal)

/-! Real-valued geometry helpers shared by JPS, Theta*, RRT and the navmesh
code.  JavaScript doubles are idealised as real numbers. -/

/-- Euclidean distance (`distance` in the source). -/
noncomputable def distance (a b : Pos) : ℝ :=
  Real.sqrt (((a.row : ℝ) - (b.row : ℝ)) ^ 2 + ((a.col : ℝ) - (b.col : ℝ)) ^ 2)

/-- JavaScript `Math.round`, which is `⌊x + 0.5⌋`. -/
noncomputable def jsRound (x : ℝ) : ℤ := ⌊x + 1 / 2⌋

/-- `Math.round(d * 10) / 10`: round to one decimal place. -/
noncomputable def roundTenth (x : ℝ) : ℝ := (jsRound (x * 10) : ℝ) / 10

/-- Total Euclidean length of a path, summed over consecutive pairs. -/
noncomputable def pathEuclid : List Pos → ℝ
  | [] => 0
  | [_] => 0
  | a :: b :: rest => distance a b + pathEuclid (b :: rest)

/-- `calculatePathDistance` from the source: Euclidean path length rounded to
one decimal place. -/
noncomputable def calculatePathDistance (path : List Pos) : ℝ :=
  roundTenth (pathEuclid path)

/-! Jump Point Search.  The jump scan, forced-neighbor test and successor
enumeration are pure integer code; the search loop itself carries real-valued
scores because jump segments have Euclidean costs. -/

/-- `hasForcedNeighbor` from the source: detects an adjacent obstacle whose
far side is free, which forces a jump point on a cardinal scan. -/
def hasForcedNeighbor (grid : Grid) (rows cols : Int) (node dir : Pos) :
    Bool :=
  if dir.row ≠ 0 then
    let left := node.col - 1
    let right := node.col + 1
    if 0 ≤ left ∧ isObstacle grid node.row left = true ∧
        0 ≤ node.row + dir.row ∧ node.row + dir.row < rows ∧
        isObstacle grid (node.row + dir.row) left = false then true
    else if right < cols ∧ isObstacle grid node.row right = true ∧
        0 ≤ node.row + dir.row ∧ node.row + dir.row < rows ∧
        isObstacle grid (node.row + dir.row) right = false then true
    else false
  else
    let up := node.row - 1
    let down := node.row + 1
    if 0 ≤ up ∧ isObstacle grid up node.col = true ∧
        0 ≤ node.col + dir.col ∧ node.col + dir.col < cols ∧
        isObstacle grid up (node.col + dir.col) = false then true
    else if down < rows ∧ isObstacle grid down node.col = true ∧
        0 ≤ node.col + dir.col ∧ node.col + dir.col < cols ∧
        isObstacle grid down (node.col + dir.col) = false then true
    else false

/-- `jump` from the source: recursive scan in direction `dir`, guarded by the
explicit depth bound `depth > 100`.  The structural fuel argument tracks
`101 - depth` (every call site keeps `fuel + depth = 101`), so the fuel can
run out only when `depth > 100`, where the source's own guard returns `null`
as well. -/
def jump (grid : Grid) (rows cols : Int) (goal : Pos) :
    Nat → Pos → Pos → Nat → Option Pos
  | 0, _, _, _ => none
  | fuel + 1, current, dir, depth =>
    if 100 < depth then none
    else
      let next : Pos := ⟨current.row + dir.row, current.col + dir.col⟩
      if next.row < 0 ∨ next.row ≥ rows ∨ next.col < 0 ∨ next.col ≥ cols ∨
          isObstacle grid next.row next.col = true then none
      else if next.row = goal.row ∧ next.col = goal.col then some next
      else if dir.row ≠ 0 ∧ dir.col ≠ 0 then
        if (jump grid rows cols goal fuel next ⟨dir.row, 0⟩ (depth + 1)).isSome ∨
            (jump grid rows cols goal fuel next ⟨0, dir.col⟩ (depth + 1)).isSome then
          some next
        else jump grid rows cols goal fuel next dir (depth + 1)
      else
        if hasForcedNeighbor grid rows cols next dir then some next
        else jump grid rows cols goal fuel next dir (depth + 1)

/-- `identifySuccessors` from the source: one jump scan per direction, each
started at depth `0` (hence fuel `101`). -/
def identifySuccessors (grid : Grid) (rows cols : Int) (goal node : Pos) :
    List Pos :=
  ([⟨-1, 0⟩, ⟨1, 0⟩, ⟨0, -1⟩, ⟨0, 1⟩,
    ⟨-1, -1⟩, ⟨-1, 1⟩, ⟨1, -1⟩, ⟨1, 1⟩] : List Pos).filterMap fun d =>
    jump grid rows cols goal 101 node d 0

/-- Metrics record for the algorithms that report a real-valued path cost. -/
structure MetricsR where
  nodesExplored : Nat
  pathLength : Nat
  pathCost : ℝ

/-- Result of JPS or Theta* (again no `exploredNodes` property). -/
structure GridResultR where
  path : List Pos
  exploredNodes : Option (List Pos)
  metrics : MetricsR

/-- Mutable state of the JPS and Theta* main loops (real-valued scores). -/
structure RSearchSt where
  queue : List (Pos × ℝ)
  cameFrom : List (Pos × Pos)
  gScore : List (Pos × ℝ)
  fScore : List (Pos × ℝ)
  visited : List Pos
  nodesExplored : Nat

/-- Relaxation of one JPS jump point. -/
noncomputable def jpsRelax (goal : Pos) (current : Pos) (g : ℝ)
    (s : RSearchSt) (jp : Pos) : RSearchSt :=
  if jp ∈ s.visited then s
  else
    let tentativeG := g + distance current jp
    if alHas s.gScore jp = false ∨ tentativeG < (alGet s.gScore jp).getD 0 then
      let f := tentativeG + (heuristic jp goal : ℝ)
      { s with
        cameFrom := alSet s.cameFrom jp current
        gScore := alSet s.gScore jp tentativeG
        fScore := alSet s.fScore jp f
        queue := pqEnqueue s.queue jp f }
    else s

/-- One iteration of the JPS `while` loop. -/
noncomputable def jpsStep (grid : Grid) (rows cols : Int) (goal : Pos)
    (s : RSearchSt) : StepRes RSearchSt GridResultR :=
  match s.queue with
  | [] => .next s
  | (current, _) :: rest =>
    if current ∈ s.visited then .next { s with queue := rest }
    else
      let s1 : RSearchSt :=
        { s with
          queue := rest
          visited := setAdd s.visited current
          nodesExplored := s.nodesExplored + 1 }
      if current = goal then
        let path := reconstructPath s.cameFrom current (s.cameFrom.length + 1)
        .done { path := path
                exploredNodes := none
                metrics := { nodesExplored := s1.nodesExplored
                             pathLength := path.length
                             pathCost := calculatePathDistance path } }
      else
        let g := (alGet s.gScore current).getD 0
        .next ((identifySuccessors grid rows cols goal current).foldl
          (jpsRelax goal current g) s1)

/-- The JPS main loop, fuel-indexed. -/
noncomputable def jpsLoop (grid : Grid) (rows cols : Int) (goal : Pos) :
    Nat → RSearchSt → Option GridResultR
  | 0, _ => none
  | fuel + 1, s =>
    match s.queue with
    | [] => none
    | _ :: _ =>
      match jpsStep grid rows cols goal s with
      | .done r => some r
      | .next s1 => jpsLoop grid rows cols goal fuel s1

/-- Initial state shared by JPS and Theta*. -/
noncomputable def rSearchInit (start goal : Pos) : RSearchSt :=
  let f : ℝ := (heuristic start goal : ℝ)
  { queue := pqEnqueue [] start f
    cameFrom := []
    gScore := alSet [] start 0
    fScore := alSet [] start f
    visited := []
    nodesExplored := 0 }

/-- `jps(grid, start, goal, rows, cols)` from the source. -/
noncomputable def jps (grid : Grid) (start goal : Pos) (rows cols : Int) :
    Option GridResultR :=
  jpsLoop grid rows cols goal (gridFuel rows cols) (rSearchInit start goal)

/-! Theta*'s line-of-sight test (`lineOfSight` in the source): Bresenham
stepping with an unguarded `grid[y0][x0]` read.  The read is parameterised by
the value `oob` an out-of-bounds access would produce, so that the claim that
such accesses never happen can be stated as independence from `oob`. -/

/-- Loop of the Bresenham scan.  The fuel `dx + dy + 1` passed by
`lineOfSightP` is exactly enough for the scan to reach its endpoint. -/
def losAux (grid : Grid) (oob : Bool) (x1 y1 dx dy sx sy : Int) :
    Nat → Int → Int → Int → Bool
  | 0, _, _, _ => true
  | fuel + 1, x0, y0, err =>
    if obstacleAt grid y0 x0 oob = true then false
    else if x0 = x1 ∧ y0 = y1 then true
    else
      let e2 := 2 * err
      let x0n := if e2 > -dy then x0 + sx else x0
      let errn := if e2 > -dy then err - dy else err
      let y0n := if e2 < dx then y0 + sy else y0
      let errn2 := if e2 < dx then errn + dx else errn
      losAux grid oob x1 y1 dx dy sx sy fuel x0n y0n errn2

/-- `lineOfSight(a, b, grid)` with the out-of-bounds read value exposed. -/
def lineOfSightP (oob : Bool) (a b : Pos) (grid : Grid) : Bool :=
  let x0 := a.col
  let y0 := a.row
  let x1 := b.col
  let y1 := b.row
  let dx := |x1 - x0|
  let dy := |y1 - y0|
  let sx : Int := if x0 < x1 then 1 else -1
  let sy : Int := if y0 < y1 then 1 else -1
  losAux grid oob x1 y1 dx dy sx sy (dx.toNat + dy.toNat + 1) x0 y0 (dx - dy)

/-- `lineOfSight` as the search code uses it. -/
def lineOfSight (a b : Pos) (grid : Grid) : Bool :=
  lineOfSightP false a b grid

/-! Theta* (`thetaStar` in the source): 8-connected A* whose relaxation first
tries to relink the neighbor to the current node's parent when the parent has
line of sight to the neighbor. -/

/-- Relaxation of one Theta* neighbor against an explicit predecessor `from_`
(the parent on the line-of-sight branch, the current node otherwise). -/
noncomputable def thetaRelaxVia (goal from_ : Pos) (s : RSearchSt)
    (neighbor : Pos) : RSearchSt :=
  let tentativeG := (alGet s.gScore from_).getD 0 + distance from_ neighbor
  if alHas s.gScore neighbor = false ∨
      tentativeG < (alGet s.gScore neighbor).getD 0 then
    let f := tentativeG + (heuristic neighbor goal : ℝ)
    { s with
      cameFrom := alSet s.cameFrom neighbor from_
      gScore := alSet s.gScore neighbor tentativeG
      fScore := alSet s.fScore neighbor f
      queue := pqEnqueue s.queue neighbor f }
  else s

/-- Treatment of one Theta* neighbor. -/
noncomputable def thetaRelax (grid : Grid) (goal current : Pos)
    (parent : Option Pos) (s : RSearchSt) (neighbor : Pos) : RSearchSt :=
  if neighbor ∈ s.visited then s
  else
    match parent with
    | some p =>
      if lineOfSight p neighbor grid = true then thetaRelaxVia goal p s neighbor
      else thetaRelaxVia goal current s neighbor
    | none => thetaRelaxVia goal current s neighbor

/-- One iteration of the Theta* `while` loop. -/
noncomputable def thetaStep (grid : Grid) (rows cols : Int) (goal : Pos)
    (s : RSearchSt) : StepRes RSearchSt GridResultR :=
  match s.queue with
  | [] => .next s
  | (current, _) :: rest =>
    if current ∈ s.visited then .next { s with queue := rest }
    else
      let s1 : RSearchSt :=
        { s with
          queue := rest
          visited := setAdd s.visited current
          nodesExplored := s.nodesExplored + 1 }
      if current = goal then
        let path := reconstructPath s.cameFrom current (s.cameFrom.length + 1)
        .done { path := path
                exploredNodes := none
                metrics := { nodesExplored := s1.nodesExplored
                             pathLength := path.length
                             pathCost := calculatePathDistance path } }
      else
        let parent := alGet s.cameFrom current
        .next ((getNeighbors current grid rows cols true).foldl
          (thetaRelax grid goal current parent) s1)

/-- The Theta* main loop, fuel-indexed. -/
noncomputable def thetaLoop (grid : Grid) (rows cols : Int) (goal : Pos) :
    Nat → RSearchSt → Option GridResultR
  | 0, _ => none
  | fuel + 1, s =>
    match s.queue with
    | [] => none
    | _ :: _ =>
      match thetaStep grid rows cols goal s with
      | .done r => some r
      | .next s1 => thetaLoop grid rows cols goal fuel s1

/-- `thetaStar(grid, start, goal, rows, cols)` from the source. -/
noncomputable def thetaStar (grid : Grid) (start goal : Pos)
    (rows cols : Int) : Option GridResultR :=
  thetaLoop grid rows cols goal (gridFuel rows cols) (rSearchInit start goal)

/-! The RRT segment test (`pathCrossesObstacle` in the source): rasterise the
segment by linear interpolation and test every sample cell.  The `grid[row][col]`
read is unguarded in the source, so it is parameterised by `oob` as well. -/

/-- One rounded interpolation coordinate,
`Math.round(a + (b - a) * (i / steps))`, evaluated exactly over the
integers: the rounded value is `⌊a + (b-a)·i/steps + 1/2⌋`, and flooring a
fraction with the positive denominator `2·steps` is integer division. -/
def lerpCoord (a b : Int) (steps i : Nat) : Int :=
  if steps = 0 then a
  else (2 * (a * steps + (b - a) * i) + steps) / (2 * steps)

/-- The integer evaluation agrees with the rational rounding formula. -/
theorem lerpCoord_eq_floor (a b : Int) (steps i : Nat) (hs : steps ≠ 0) :
    lerpCoord a b steps i =
      ⌊(a : ℚ) + ((b : ℚ) - (a : ℚ)) * ((i : ℚ) / (steps : ℚ)) + 1 / 2⌋ := by
  rw [lerpCoord, if_neg hs]
  have hsq : ((steps : ℚ)) ≠ 0 := by exact_mod_cast hs
  have hexpr : (a : ℚ) + ((b : ℚ) - (a : ℚ)) * ((i : ℚ) / (steps : ℚ)) + 1 / 2 =
      (((2 * (a * steps + (b - a) * i) + steps : ℤ) : ℚ)) /
        (((2 * steps : ℕ) : ℚ)) := by
    push_cast
    field_simp
    ring
  rw [hexpr, Rat.floor_intCast_div_natCast]
  norm_num

/-- Sample cell `i` of the interpolated segment from `from_` to `to_` with
`steps` subdivisions (`t = i / steps`, components rounded). -/
def lerpCell (from_ to_ : Pos) (steps : Nat) (i : Nat) : Pos :=
  ⟨lerpCoord from_.row to_.row steps i, lerpCoord from_.col to_.col steps i⟩

/-- Number of interpolation steps: `max(|Δrow|, |Δcol|)`. -/
def lerpSteps (from_ to_ : Pos) : Nat :=
  max (to_.row - from_.row).natAbs (to_.col - from_.col).natAbs

/-- `pathCrossesObstacle(from, to, grid)` with the out-of-bounds read value
exposed. -/
def pathCrossesObstacleP (oob : Bool) (from_ to_ : Pos) (grid : Grid) : Bool :=
  let steps := lerpSteps from_ to_
  (List.range (steps + 1)).any fun i =>
    let c := lerpCell from_ to_ steps i
    obstacleAt grid c.row c.col oob

/-- `pathCrossesObstacle` as the RRT code uses it. -/
def pathCrossesObstacle (from_ to_ : Pos) (grid : Grid) : Bool :=
  pathCrossesObstacleP false from_ to_ grid

/-! NavMesh machinery (`navmesh.js`).  Waypoint generation, the guarded
Bresenham line-of-sight test, edge construction, the waypoint searches, the
funnel smoother and the navmesh RRT. -/

/-- Waypoint `{id, row, col}`. -/
structure Waypoint where
  id : Nat
  row : Int
  col : Int
deriving DecidableEq

/-- Position of a waypoint. -/
def wpPos (w : Waypoint) : Pos := ⟨w.row, w.col⟩

/-- Length of the first row, as the source's `grid[0].length`. -/
def gridCols (grid : Grid) : Int := (grid.getD 0 []).length

/-- Loop of the bounds-guarded Bresenham scan of `hasLineOfSight` (the
navmesh version checks `0 <= y0 < grid.length && 0 <= x0 < grid[0].length`
before reading the cell).  The fuel `dx + dy + 1` is exactly enough for the
scan to reach its endpoint. -/
def hlosAux (grid : Grid) (x1 y1 dx dy sx sy : Int) :
    Nat → Int → Int → Int → Bool
  | 0, _, _, _ => true
  | fuel + 1, x0, y0, err =>
    if 0 ≤ y0 ∧ y0 < (grid.length : Int) ∧ 0 ≤ x0 ∧ x0 < gridCols grid ∧
        isObstacle grid y0 x0 = true then false
    else if x0 = x1 ∧ y0 = y1 then true
    else
      let e2 := 2 * err
      let x0n := if e2 > -dy then x0 + sx else x0
      let errn := if e2 > -dy then err - dy else err
      let y0n := if e2 < dx then y0 + sy else y0
      let errn2 := if e2 < dx then errn + dx else errn
      hlosAux grid x1 y1 dx dy sx sy fuel x0n y0n errn2

/-- `hasLineOfSight(from, to, grid)` from the navmesh code. -/
def hasLineOfSight (a b : Pos) (grid : Grid) : Bool :=
  let x0 := a.col
  let y0 := a.row
  let x1 := b.col
  let y1 := b.row
  let dx := |x1 - x0|
  let dy := |y1 - y0|
  let sx : Int := if x0 < x1 then 1 else -1
  let sy : Int := if y0 < y1 then 1 else -1
  hlosAux grid x1 y1 dx dy sx sy (dx.toNat + dy.toNat + 1) x0 y0 (dx - dy)

/-- Squared Euclidean distance between a point and a waypoint (exact
integer). -/
def dsqPosWp (p : Pos) (w : Waypoint) : Int :=
  (p.row - w.row) ^ 2 + (p.col - w.col) ^ 2

/-- Squared Euclidean distance between two waypoints. -/
def dsqWp (a b : Waypoint) : Int :=
  (a.row - b.row) ^ 2 + (a.col - b.col) ^ 2

/-- Navmesh edge.  The source stores `cost = Math.sqrt(dsq)`; the embedding
stores the exact squared distance `costSq` and recovers the real cost as
`edgeCost`, so that the builder stays executable (comparing the source's
`dist > 15` is exactly `costSq > 225`). -/
structure Edge where
  fromId : Nat
  toId : Nat
  costSq : Int
deriving DecidableEq

/-- The real-valued cost the source stores on an edge. -/
noncomputable def edgeCost (e : Edge) : ℝ := Real.sqrt (e.costSq : ℝ)

/-- Navmesh `{waypoints, edges}` (the constant `type` tag is omitted). -/
structure NavMesh where
  waypoints : List Waypoint
  edges : List Edge
deriving DecidableEq

/-- Append a waypoint unless one with the same coordinates exists
(the source's de-duplication by coordinate, with `id = waypoints.length`). -/
def addWaypoint (acc : List Waypoint) (p : Pos) : List Waypoint :=
  if acc.any (fun w => w.row = p.row ∧ w.col = p.col) then acc
  else acc ++ [{ id := acc.length, row := p.row, col := p.col }]

/-- The eight corner offsets around an obstacle cell, in source order. -/
def cornerOffsets : List Pos :=
  [⟨-1, -1⟩, ⟨-1, 0⟩, ⟨-1, 1⟩, ⟨0, -1⟩, ⟨0, 1⟩, ⟨1, -1⟩, ⟨1, 0⟩, ⟨1, 1⟩]

/-- All grid cells in row-major order. -/
def allCells (rows cols : Int) : List Pos :=
  (List.range rows.toNat).flatMap fun r =>
    (List.range cols.toNat).map fun c => ⟨(r : Int), (c : Int)⟩

/-- Step 1 of `generateNavMesh`: waypoints at free in-bounds corners of
obstacle cells. -/
def cornerWaypoints (grid : Grid) (rows cols : Int) : List Waypoint :=
  (allCells rows cols).foldl
    (fun acc cell =>
      if isObstacle grid cell.row cell.col = true then
        cornerOffsets.foldl
          (fun acc2 d =>
            let corner : Pos := ⟨cell.row + d.row, cell.col + d.col⟩
            if 0 ≤ corner.row ∧ corner.row < rows ∧ 0 ≤ corner.col ∧
                corner.col < cols ∧ isObstacle grid corner.row corner.col = false then
              addWaypoint acc2 corner
            else acc2)
          acc
      else acc)
    []

/-- The lattice indices `2, 7, 12, …` below `n` (the source's
`for (v = 2; v < n; v += 5)`). -/
def latticeVals (n : Int) : List Int :=
  ((List.range n.toNat).map fun v => (v : Int)).filter
    fun v => 2 ≤ v ∧ (v - 2) % 5 = 0

/-- Step 2 of `generateNavMesh`: waypoints on the open-area lattice. -/
def latticeWaypoints (grid : Grid) (rows cols : Int)
    (acc : List Waypoint) : List Waypoint :=
  (latticeVals rows).foldl
    (fun accR r =>
      (latticeVals cols).foldl
        (fun accC c =>
          if isObstacle grid r c = false then addWaypoint accC ⟨r, c⟩
          else accC)
        accR)
    acc

/-- Step 3 of `generateNavMesh`: connect every pair of waypoints at Euclidean
distance at most 15 that has line of sight. -/
def navEdges (wps : List Waypoint) (grid : Grid) : List Edge :=
  (List.range wps.length).flatMap fun i =>
    ((List.range wps.length).filter fun j => i < j).filterMap fun j =>
      let w1 := wps.getD i ⟨0, 0, 0⟩
      let w2 := wps.getD j ⟨0, 0, 0⟩
      if dsqWp w1 w2 > 225 then none
      else if hasLineOfSight (wpPos w1) (wpPos w2) grid then
        some { fromId := i, toId := j, costSq := dsqWp w1 w2 }
      else none

/-- `generateNavMesh(grid, rows, cols, cellSize)` from the source (the
`cellSize` argument is unused by the source body). -/
def generateNavMesh (grid : Grid) (rows cols : Int) : NavMesh :=
  let wps := latticeWaypoints grid rows cols (cornerWaypoints grid rows cols)
  { waypoints := wps, edges := navEdges wps grid }

/-- `findNearestWaypoint(waypoints, point, grid)`: the closest waypoint with
line of sight to the point.  The source compares square-root distances; the
embedding compares the exact squares, which orders identically. -/
def findNearestWaypoint (wps : List Waypoint) (point : Pos) (grid : Grid) :
    Option Waypoint :=
  (wps.foldl
    (fun best wp =>
      if hasLineOfSight point (wpPos wp) grid then
        match best with
        | none => some (wp, dsqPosWp point wp)
        | some (w0, d0) =>
          if dsqPosWp point wp < d0 then some (wp, dsqPosWp point wp)
          else some (w0, d0)
      else best)
    none).map fun e => e.1

/-- Adjacency list seeded with an empty bucket per waypoint id. -/
def adjInit (n : Nat) : List (Nat × List (Nat × Int)) :=
  (List.range n).map fun i => (i, [])

/-- Push a neighbor entry onto the bucket of `k`. -/
def adjAdd (adj : List (Nat × List (Nat × Int))) (k : Nat)
    (v : Nat × Int) : List (Nat × List (Nat × Int)) :=
  adj.map fun e => if e.1 = k then (e.1, e.2 ++ [v]) else e

/-- `buildAdjacencyList(navmesh)`: both directions of every edge, with the
squared cost (the source stores the square root; sums of these costs are
interpreted through `Real.sqrt` by the searches). -/
def buildAdjacencyList (nm : NavMesh) : List (Nat × List (Nat × Int)) :=
  nm.edges.foldl
    (fun adj e =>
      adjAdd (adjAdd adj e.fromId (e.toId, e.costSq)) e.toId
        (e.fromId, e.costSq))
    (adjInit nm.waypoints.length)

/-- `heuristicWaypoint(wp1, wp2)`: Euclidean distance between waypoints. -/
noncomputable def heuristicWaypoint (a b : Waypoint) : ℝ :=
  Real.sqrt ((dsqWp a b : ℝ))

/-- Real cost of an adjacency entry. -/
noncomputable def neighborCost (v : Nat × Int) : ℝ := Real.sqrt ((v.2 : ℝ))

/-- `reconstructWaypointPath(cameFrom, currentId, waypoints)`: positions of
the chain of waypoint ids, fuel-indexed like `reconstructPath`. -/
def reconstructWaypointPath (cameFrom : List (Nat × Nat))
    (wps : List Waypoint) : Nat → Nat → List Pos
  | 0, current => [wpPos (wps.getD current ⟨0, 0, 0⟩)]
  | fuel + 1, current =>
    match alGet cameFrom current with
    | none => [wpPos (wps.getD current ⟨0, 0, 0⟩)]
    | some prev =>
      reconstructWaypointPath cameFrom wps fuel prev ++
        [wpPos (wps.getD current ⟨0, 0, 0⟩)]

/-- Push a cell unless it equals the previous one (the duplicate check of
`smoothNavMeshPath` and `smoothRRTPath`). -/
def pushDedup (l : List Pos) (p : Pos) : List Pos :=
  if l.getLast? = some p then l else l ++ [p]

/-- Interpolated cells of one smoothing segment appended to `acc`. -/
def smoothSeg (from_ to_ : Pos) (acc : List Pos) : List Pos :=
  let dist := lerpSteps from_ to_
  (List.range (dist + 1)).foldl
    (fun l j => pushDedup l (lerpCell from_ to_ dist j)) acc

/-- `smoothNavMeshPath(waypointPath, grid)`: densify a waypoint path to a
cell-by-cell path (the `grid` argument is unused by the source body). -/
def smoothNavMeshPath (waypointPath : List Pos) : List Pos :=
  let base :=
    (List.range (waypointPath.length - 1)).foldl
      (fun acc i =>
        smoothSeg (waypointPath.getD i ⟨0, 0⟩) (waypointPath.getD (i + 1) ⟨0, 0⟩)
          acc)
      []
  match waypointPath.getLast? with
  | none => base
  | some last => pushDedup base last

/-- `calculatePathDistanceNavMesh(path)`: same rounding of the Euclidean path
length as `calculatePathDistance`. -/
noncomputable def calculatePathDistanceNavMesh (path : List Pos) : ℝ :=
  roundTenth (pathEuclid path)

/-- Scan of `funnelAlgorithm`: from anchor `c`, extend `best` to each index
`i` (starting at `c + 2`) while the anchor has line of sight to it; stop at
the first index without line of sight.  The fuel dominates `p.length - i`. -/
def scanFar (p : List Pos) (grid : Grid) (c : Nat) :
    Nat → Nat → Nat → Nat
  | 0, _, best => best
  | fuel + 1, i, best =>
    if i < p.length then
      if hasLineOfSight (p.getD c ⟨0, 0⟩) (p.getD i ⟨0, 0⟩) grid then
        scanFar p grid c fuel (i + 1) i
      else best
    else best

/-- Anchor indices chosen by the funnel loop, starting from anchor `c`.  The
fuel dominates the number of loop iterations (each anchor strictly
increases). -/
def funnelIdx (p : List Pos) (grid : Grid) : Nat → Nat → List Nat
  | 0, _ => []
  | fuel + 1, c =>
    if c < p.length - 1 then
      let fv := scanFar p grid c p.length (c + 2) (c + 1)
      fv :: funnelIdx p grid fuel fv
    else []

/-- `funnelAlgorithm(waypointPath, navmesh, grid)` from the source: the
output is the first input point followed by the points at the anchor indices
(the `navmesh` argument is unused by the source body). -/
def funnelAlgorithm (waypointPath : List Pos) (grid : Grid) : List Pos :=
  if waypointPath.length ≤ 2 then waypointPath
  else
    (0 :: funnelIdx waypointPath grid waypointPath.length 0).map fun i =>
      waypointPath.getD i ⟨0, 0⟩

/-- Result of a navmesh search (`path`, `exploredNodes`, `metrics`,
`waypointPath`). -/
structure NavResult where
  path : List Pos
  exploredNodes : List Waypoint
  metrics : MetricsR
  waypointPath : List Pos

/-- `buildNavMeshResult(...)` from the source: reconstruct the waypoint path,
attach the true start and goal, funnel-smooth, densify and package. -/
noncomputable def buildNavMeshResult (cameFrom : List (Nat × Nat))
    (goalId : Nat) (nm : NavMesh) (start goal : Pos) (grid : Grid)
    (nodesExplored : Nat) (visitedNodes : List Waypoint) : NavResult :=
  let waypointPath :=
    start ::
      (reconstructWaypointPath cameFrom nm.waypoints (cameFrom.length + 1)
        goalId ++ [goal])
  let funnelPath := funnelAlgorithm waypointPath grid
  let smoothPath := smoothNavMeshPath funnelPath
  { path := smoothPath
    exploredNodes := visitedNodes
    metrics := { nodesExplored := nodesExplored
                 pathLength := smoothPath.length
                 pathCost := calculatePathDistanceNavMesh smoothPath }
    waypointPath := waypointPath }

/-- Mutable state of the navmesh A* loop. -/
structure NavAStarSt where
  queue : List (Nat × ℝ)
  cameFrom : List (Nat × Nat)
  gScore : List (Nat × ℝ)
  fScore : List (Nat × ℝ)
  visited : List Nat
  visitedNodes : List Waypoint
  nodesExplored : Nat

/-- Set insertion for visited waypoint ids. -/
def setAddNat (l : List Nat) (x : Nat) : List Nat :=
  if x ∈ l then l else l ++ [x]

/-- Relaxation of one navmesh A* neighbor. -/
noncomputable def navAStarRelax (wps : List Waypoint) (goalWp : Waypoint)
    (currentId : Nat) (g : ℝ) (s : NavAStarSt) (nb : Nat × Int) :
    NavAStarSt :=
  if nb.1 ∈ s.visited then s
  else
    let tentativeG := g + neighborCost nb
    if alHas s.gScore nb.1 = false ∨
        tentativeG < (alGet s.gScore nb.1).getD 0 then
      let h := heuristicWaypoint (wps.getD nb.1 ⟨0, 0, 0⟩) goalWp
      { s with
        cameFrom := alSet s.cameFrom nb.1 currentId
        gScore := alSet s.gScore nb.1 tentativeG
        fScore := alSet s.fScore nb.1 (tentativeG + h)
        queue := pqEnqueue s.queue nb.1 (tentativeG + h) }
    else s

/-- One iteration of the navmesh A* `while` loop.  On reaching the goal the
source builds its result inline without the funnel pass (unlike
`buildNavMeshResult`, which the Dijkstra and Greedy variants share). -/
noncomputable def navAStarStep (nm : NavMesh) (adjacency : List (Nat × List (Nat × Int)))
    (start goal : Pos) (goalWp : Waypoint) (goalId : Nat)
    (s : NavAStarSt) : StepRes NavAStarSt NavResult :=
  match s.queue with
  | [] => .next s
  | (currentId, _) :: rest =>
    if currentId ∈ s.visited then .next { s with queue := rest }
    else
      let s1 : NavAStarSt :=
        { s with
          queue := rest
          visited := setAddNat s.visited currentId
          visitedNodes :=
            s.visitedNodes ++ [nm.waypoints.getD currentId ⟨0, 0, 0⟩]
          nodesExplored := s.nodesExplored + 1 }
      if currentId = goalId then
        let waypointPath :=
          start ::
            (reconstructWaypointPath s.cameFrom nm.waypoints
              (s.cameFrom.length + 1) currentId ++ [goal])
        let smoothPath := smoothNavMeshPath waypointPath
        .done { path := smoothPath
                exploredNodes := s1.visitedNodes
                metrics := { nodesExplored := s1.nodesExplored
                             pathLength := smoothPath.length
                             pathCost := calculatePathDistanceNavMesh smoothPath }
                waypointPath := waypointPath }
      else
        let g := (alGet s.gScore currentId).getD 0
        .next (((alGet adjacency currentId).getD []).foldl
          (navAStarRelax nm.waypoints goalWp currentId g) s1)

/-- The navmesh A* main loop, fuel-indexed. -/
noncomputable def navAStarLoop (nm : NavMesh)
    (adjacency : List (Nat × List (Nat × Int))) (start goal : Pos)
    (goalWp : Waypoint) (goalId : Nat) :
    Nat → NavAStarSt → Option NavResult
  | 0, _ => none
  | fuel + 1, s =>
    match s.queue with
    | [] => none
    | _ :: _ =>
      match navAStarStep nm adjacency start goal goalWp goalId s with
      | .done r => some r
      | .next s1 => navAStarLoop nm adjacency start goal goalWp goalId fuel s1

/-- Fuel for the navmesh searches. -/
def navFuel (nm : NavMesh) : Nat :=
  ((nm.waypoints.length + nm.edges.length + 1) ^ 2) + 1

/-- `navmeshAStar(navmesh, start, goal, grid)` from the source. -/
noncomputable def navmeshAStar (nm : NavMesh) (start goal : Pos)
    (grid : Grid) : Option NavResult :=
  match findNearestWaypoint nm.waypoints start grid,
      findNearestWaypoint nm.waypoints goal grid with
  | some startWp, some goalWp =>
    let adjacency := buildAdjacencyList nm
    let h := heuristicWaypoint startWp goalWp
    let s0 : NavAStarSt :=
      { queue := pqEnqueue [] startWp.id h
        cameFrom := []
        gScore := alSet [] startWp.id 0
        fScore := alSet [] startWp.id h
        visited := []
        visitedNodes := []
        nodesExplored := 0 }
    navAStarLoop nm adjacency start goal goalWp goalWp.id (navFuel nm) s0
  | _, _ => none

/-- Mutable state of the navmesh Dijkstra loop. -/
structure NavDijkstraSt where
  queue : List (Nat × ℝ)
  cameFrom : List (Nat × Nat)
  gScore : List (Nat × ℝ)
  visited : List Nat
  visitedNodes : List Waypoint
  nodesExplored : Nat

/-- Relaxation of one navmesh Dijkstra neighbor. -/
noncomputable def navDijkstraRelax (currentId : Nat) (g : ℝ)
    (s : NavDijkstraSt) (nb : Nat × Int) : NavDijkstraSt :=
  if nb.1 ∈ s.visited then s
  else
    let tentativeG := g + neighborCost nb
    if alHas s.gScore nb.1 = false ∨
        tentativeG < (alGet s.gScore nb.1).getD 0 then
      { s with
        cameFrom := alSet s.cameFrom nb.1 currentId
        gScore := alSet s.gScore nb.1 tentativeG
        queue := pqEnqueue s.queue nb.1 tentativeG }
    else s

/-- One iteration of the navmesh Dijkstra `while` loop. -/
noncomputable def navDijkstraStep (nm : NavMesh)
    (adjacency : List (Nat × List (Nat × Int))) (start goal : Pos)
    (grid : Grid) (goalId : Nat) (s : NavDijkstraSt) :
    StepRes NavDijkstraSt NavResult :=
  match s.queue with
  | [] => .next s
  | (currentId, _) :: rest =>
    if currentId ∈ s.visited then .next { s with queue := rest }
    else
      let s1 : NavDijkstraSt :=
        { s with
          queue := rest
          visited := setAddNat s.visited currentId
          visitedNodes :=
            s.visitedNodes ++ [nm.waypoints.getD currentId ⟨0, 0, 0⟩]
          nodesExplored := s.nodesExplored + 1 }
      if currentId = goalId then
        .done (buildNavMeshResult s.cameFrom currentId nm start goal grid
          s1.nodesExplored s1.visitedNodes)
      else
        let g := (alGet s.gScore currentId).getD 0
        .next (((alGet adjacency currentId).getD []).foldl
          (navDijkstraRelax currentId g) s1)

/-- The navmesh Dijkstra main loop, fuel-indexed. -/
noncomputable def navDijkstraLoop (nm : NavMesh)
    (adjacency : List (Nat × List (Nat × Int))) (start goal : Pos)
    (grid : Grid) (goalId : Nat) :
    Nat → NavDijkstraSt → Option NavResult
  | 0, _ => none
  | fuel + 1, s =>
    match s.queue with
    | [] => none
    | _ :: _ =>
      match navDijkstraStep nm adjacency start goal grid goalId s with
      | .done r => some r
      | .next s1 => navDijkstraLoop nm adjacency start goal grid goalId fuel s1

/-- `navmeshDijkstra(navmesh, start, goal, grid)` from the source. -/
noncomputable def navmeshDijkstra (nm : NavMesh) (start goal : Pos)
    (grid : Grid) : Option NavResult :=
  match findNearestWaypoint nm.waypoints start grid,
      findNearestWaypoint nm.waypoints goal grid with
  | some startWp, some goalWp =>
    let adjacency := buildAdjacencyList nm
    let s0 : NavDijkstraSt :=
      { queue := pqEnqueue [] startWp.id 0
        cameFrom := []
        gScore := alSet [] startWp.id 0
        visited := []
        visitedNodes := []
        nodesExplored := 0 }
    navDijkstraLoop nm adjacency start goal grid goalWp.id (navFuel nm) s0
  | _, _ => none

/-- Mutable state of the navmesh Greedy loop. -/
structure NavGreedySt where
  queue : List (Nat × ℝ)
  cameFrom : List (Nat × Nat)
  visited : List Nat
  visitedNodes : List Waypoint
  nodesExplored : Nat

/-- Treatment of one navmesh Greedy neighbor. -/
noncomputable def navGreedyRelax (wps : List Waypoint) (goalWp : Waypoint)
    (currentId : Nat) (s : NavGreedySt) (nb : Nat × Int) : NavGreedySt :=
  if nb.1 ∈ s.visited then s
  else if alHas s.cameFrom nb.1 then s
  else
    let h := heuristicWaypoint (wps.getD nb.1 ⟨0, 0, 0⟩) goalWp
    { s with
      cameFrom := alSet s.cameFrom nb.1 currentId
      queue := pqEnqueue s.queue nb.1 h }

/-- One iteration of the navmesh Greedy `while` loop. -/
noncomputable def navGreedyStep (nm : NavMesh)
    (adjacency : List (Nat × List (Nat × Int))) (start goal : Pos)
    (grid : Grid) (goalWp : Waypoint) (goalId : Nat) (s : NavGreedySt) :
    StepRes NavGreedySt NavResult :=
  match s.queue with
  | [] => .next s
  | (currentId, _) :: rest =>
    if currentId ∈ s.visited then .next { s with queue := rest }
    else
      let s1 : NavGreedySt :=
        { s with
          queue := rest
          visited := setAddNat s.visited currentId
          visitedNodes :=
            s.visitedNodes ++ [nm.waypoints.getD currentId ⟨0, 0, 0⟩]
          nodesExplored := s.nodesExplored + 1 }
      if currentId = goalId then
        .done (buildNavMeshResult s.cameFrom currentId nm start goal grid
          s1.nodesExplored s1.visitedNodes)
      else
        .next (((alGet adjacency currentId).getD []).foldl
          (navGreedyRelax nm.waypoints goalWp currentId) s1)

/-- The navmesh Greedy main loop, fuel-indexed. -/
noncomputable def navGreedyLoop (nm : NavMesh)
    (adjacency : List (Nat × List (Nat × Int))) (start goal : Pos)
    (grid : Grid) (goalWp : Waypoint) (goalId : Nat) :
    Nat → NavGreedySt → Option NavResult
  | 0, _ => none
  | fuel + 1, s =>
    match s.queue with
    | [] => none
    | _ :: _ =>
      match navGreedyStep nm adjacency start goal grid goalWp goalId s with
      | .done r => some r
      | .next s1 =>
        navGreedyLoop nm adjacency start goal grid goalWp goalId fuel s1

/-- `navmeshGreedy(navmesh, start, goal, grid)` from the source. -/
noncomputable def navmeshGreedy (nm : NavMesh) (start goal : Pos)
    (grid : Grid) : Option NavResult :=
  match findNearestWaypoint nm.waypoints start grid,
      findNearestWaypoint nm.waypoints goal grid with
  | some startWp, some goalWp =>
    let adjacency := buildAdjacencyList nm
    let h := heuristicWaypoint startWp goalWp
    let s0 : NavGreedySt :=
      { queue := pqEnqueue [] startWp.id h
        cameFrom := []
        visited := []
        visitedNodes := []
        nodesExplored := 0 }
    navGreedyLoop nm adjacency start goal grid goalWp goalWp.id (navFuel nm) s0
  | _, _ => none

/-! NavMesh RRT (`navmeshRRT` in the source).  The calls to `Math.random`
are modelled by an oracle stream of sampling choices, one per iteration. -/

/-- One sampling decision: take the goal, or the waypoint at index `k`. -/
inductive RrtChoice : Type
  | goal : RrtChoice
  | wp (k : Nat) : RrtChoice

/-- `distance2D` from the source. -/
noncomputable def distance2D (a b : Pos) : ℝ :=
  Real.sqrt (((a.row : ℝ) - (b.row : ℝ)) ^ 2 + ((a.col : ℝ) - (b.col : ℝ)) ^ 2)

/-- Tree nodes are stored with the index of their parent (`null` for the
root); the source links nodes by object reference. -/
abbrev RrtTree := List (Pos × Option Nat)

/-- Index of the tree node nearest to `target` (the source's linear scan,
which starts from the root and replaces on strictly smaller distance). -/
noncomputable def rrtNearest (tree : RrtTree) (target : Pos) : Nat :=
  (tree.foldl
    (fun st node =>
      let d := distance2D node.1 target
      let best := if d < st.2.2 then (st.1, d) else st.2
      (st.1 + 1, best))
    (0, 0, distance2D ((tree.getD 0 (⟨0, 0⟩, none)).1) target)).2.1

/-- `pathCrossesObstacleNavMesh(from, to, grid)`: interpolated segment test
with explicit bounds checks (out of bounds counts as crossing). -/
def pathCrossesObstacleNavMesh (from_ to_ : Pos) (grid : Grid) : Bool :=
  let steps := lerpSteps from_ to_
  (List.range (steps + 1)).any fun i =>
    let c := lerpCell from_ to_ steps i
    if 0 ≤ c.row ∧ c.row < (grid.length : Int) ∧ 0 ≤ c.col ∧
        c.col < gridCols grid then
      isObstacle grid c.row c.col
    else true

/-- `reconstructRRTPathNavMesh(node)`: chase parent indices from a node. -/
def reconstructRRTPath (tree : RrtTree) : Nat → Nat → List Pos
  | 0, idx => [(tree.getD idx (⟨0, 0⟩, none)).1]
  | fuel + 1, idx =>
    match (tree.getD idx (⟨0, 0⟩, none)).2 with
    | none => [(tree.getD idx (⟨0, 0⟩, none)).1]
    | some p => reconstructRRTPath tree fuel p ++ [(tree.getD idx (⟨0, 0⟩, none)).1]

/-- Result of the navmesh RRT (its `exploredNodes` are plain positions, not
waypoint objects, and it carries no `waypointPath`). -/
structure NavRrtResult where
  path : List Pos
  exploredNodes : List Pos
  metrics : MetricsR

/-- Package the navmesh RRT success result: attach the goal as a child of the
node just added (the last node of `tree1`), reconstruct by parent-chasing and
densify. -/
noncomputable def navRrtResult (tree1 : RrtTree) (goal : Pos)
    (explored : List Pos) (nodesExplored : Nat) : NavRrtResult :=
  let treeG : RrtTree := tree1 ++ [(goal, some (tree1.length - 1))]
  let path := reconstructRRTPath treeG treeG.length (treeG.length - 1)
  let smoothPath := smoothNavMeshPath path
  { path := smoothPath
    exploredNodes := explored
    metrics := { nodesExplored := nodesExplored
                 pathLength := smoothPath.length
                 pathCost := calculatePathDistanceNavMesh smoothPath } }

/-- The navmesh RRT iteration loop.  `stream n` supplies the sampling
decision of iteration `n`; `explored` and `nodesExplored` grow together. -/
noncomputable def navRrtLoop (nm : NavMesh) (goal : Pos) (grid : Grid)
    (stream : Nat → RrtChoice) :
    Nat → Nat → RrtTree → List Pos → Nat → Option NavRrtResult
  | 0, _, _, _, _ => none
  | iter + 1, n, tree, explored, nodesExplored =>
    let randomPoint :=
      match stream n with
      | .goal => goal
      | .wp k => wpPos (nm.waypoints.getD k ⟨0, 0, 0⟩)
    let nearestIdx := rrtNearest tree randomPoint
    let nearestPos := (tree.getD nearestIdx (⟨0, 0⟩, none)).1
    let d := distance2D nearestPos randomPoint
    if d = 0 then navRrtLoop nm goal grid stream iter (n + 1) tree explored nodesExplored
    else
      let frac := min (3 / d) 1
      let newPos : Pos :=
        ⟨jsRound ((nearestPos.row : ℝ) + ((randomPoint.row : ℝ) - (nearestPos.row : ℝ)) * frac),
         jsRound ((nearestPos.col : ℝ) + ((randomPoint.col : ℝ) - (nearestPos.col : ℝ)) * frac)⟩
      if newPos.row < 0 ∨ newPos.row ≥ (grid.length : Int) ∨ newPos.col < 0 ∨
          newPos.col ≥ gridCols grid ∨ isObstacle grid newPos.row newPos.col = true then
        navRrtLoop nm goal grid stream iter (n + 1) tree explored nodesExplored
      else if pathCrossesObstacleNavMesh nearestPos newPos grid = true then
        navRrtLoop nm goal grid stream iter (n + 1) tree explored nodesExplored
      else
        let tree1 := tree ++ [(newPos, some nearestIdx)]
        let explored1 := explored ++ [newPos]
        let nodesExplored1 := nodesExplored + 1
        if distance2D newPos goal < 3 then
          some (navRrtResult tree1 goal explored1 nodesExplored1)
        else navRrtLoop nm goal grid stream iter (n + 1) tree1 explored1 nodesExplored1

/-- `navmeshRRT(navmesh, start, goal, grid, maxIterations = 1000)` from the
source, with the random sampling supplied by `stream`. -/
noncomputable def navmeshRRT (nm : NavMesh) (start goal : Pos) (grid : Grid)
    (stream : Nat → RrtChoice) : Option NavRrtResult :=
  navRrtLoop nm goal grid stream 1000 0 [(start, none)] [] 0

/-! Concrete grids used by the scenario claims. -/

/-- An empty (obstacle-free) `rows × cols` grid. -/
def emptyGrid (rows cols : Nat) : Grid :=
  List.replicate rows (List.replicate cols false)

/-- The 10 × 10 empty grid of the concrete scenario. -/
def grid10 : Grid := emptyGrid 10 10

/-- A 2 × 2 empty grid. -/
def grid2 : Grid := emptyGrid 2 2

/-- Evaluate a square root at a perfect square. -/
theorem real_sqrt_eval {x y : ℝ} (hy : 0 ≤ y) (h : y ^ 2 = x) :
    Real.sqrt x = y := by
  rw [← h, Real.sqrt_sq hy]

/-- Evaluate `jsRound (Real.sqrt x * 10)` from rational bounds on `400 * x`. -/
theorem jsRound_sqrt_eval {x : ℝ} (k : ℤ) (hk : 0 ≤ k)
    (h1 : ((2 * k - 1 : ℤ) : ℝ) ^ 2 ≤ 400 * x ∨ 2 * k - 1 ≤ 0)
    (h2 : 400 * x < ((2 * k + 1 : ℤ) : ℝ) ^ 2) (hx : 0 ≤ x) :
    jsRound (Real.sqrt x * 10) = k := by
  have hs : 0 ≤ Real.sqrt x := Real.sqrt_nonneg x
  have hsq : Real.sqrt x ^ 2 = x := Real.sq_sqrt hx
  rw [jsRound, Int.floor_eq_iff]
  constructor
  · rcases h1 with h1 | h1
    · by_cases hz : ((2 * k - 1 : ℤ) : ℝ) ≤ 0
      · push_cast at hz ⊢
        nlinarith
      · push_cast at hz h1 ⊢
        nlinarith [sq_nonneg (Real.sqrt x * 20 - (2 * (k : ℝ) - 1))]
    · have hz : ((2 * k - 1 : ℤ) : ℝ) ≤ 0 := by exact_mod_cast Int.cast_nonpos.mpr h1
      push_cast at hz ⊢
      nlinarith
  · by_contra hge
    push_neg at hge
    have hub : 2 * (k : ℝ) + 1 ≤ Real.sqrt x * 20 := by
      linarith
    have hnn : (0 : ℝ) ≤ 2 * (k : ℝ) + 1 := by
      have : (0 : ℝ) ≤ (k : ℝ) := by exact_mod_cast hk
      linarith
    have hsq2 : (2 * (k : ℝ) + 1) ^ 2 ≤ (Real.sqrt x * 20) ^ 2 :=
      pow_le_pow_left₀ hnn hub 2
    have : (Real.sqrt x * 20) ^ 2 = 400 * x := by
      rw [mul_pow, hsq]; ring
    push_cast at h2
    nlinarith

/-- Unfold the Euclidean length of a two-point path. -/
theorem pathEuclid_pair (a b : Pos) : pathEuclid [a, b] = distance a b := by
  simp [pathEuclid]

/-- The distance between the two corner cells of the unit square. -/
theorem distance_diag : distance ⟨0, 0⟩ ⟨1, 1⟩ = Real.sqrt 2 := by
  rw [distance]
  norm_num

/-- The distance across the top row of the 10 × 10 grid. -/
theorem distance_row9 : distance ⟨0, 0⟩ ⟨0, 9⟩ = 9 := by
  rw [distance]
  norm_num
  exact real_sqrt_eval (by norm_num) (by norm_num)

/-- The one-decimal rounding of `Real.sqrt 2` is `1.4`. -/
theorem roundTenth_sqrt2 : roundTenth (Real.sqrt 2) = 7 / 5 := by
  rw [roundTenth, jsRound_sqrt_eval 14 (by norm_num) (by norm_num) (by norm_num)
    (by norm_num)]
  norm_num

/-- `calculatePathDistance` on the corner-to-corner pair. -/
theorem calcDist_diag : calculatePathDistance [⟨0, 0⟩, ⟨1, 1⟩] = 7 / 5 := by
  rw [calculatePathDistance, pathEuclid_pair, distance_diag, roundTenth_sqrt2]

/-- `calculatePathDistance` on the straight 9-cell jump. -/
theorem calcDist_row9 : calculatePathDistance [⟨0, 0⟩, ⟨0, 9⟩] = 9 := by
  rw [calculatePathDistance, pathEuclid_pair, distance_row9, roundTenth, jsRound]
  norm_num

/-! Claim C9: the JPS jump scan is depth-guarded and total, and a returned
jump point is an in-bounds free cell. -/

/-- A returned jump point is in bounds and free. -/
theorem jump_some_valid (grid : Grid) (rows cols : Int) (goal : Pos) :
    ∀ (fuel : Nat) (current dir : Pos) (depth : Nat) (p : Pos),
      jump grid rows cols goal fuel current dir depth = some p →
      0 ≤ p.row ∧ p.row < rows ∧ 0 ≤ p.col ∧ p.col < cols ∧
        isObstacle grid p.row p.col = false := by
  intro fuel
  induction fuel with
  | zero => intro current dir depth p h; simp [jump] at h
  | succ n ih =>
    intro current dir depth p h
    rw [jump] at h
    by_cases hd : 100 < depth
    · simp [hd] at h
    · simp only [if_neg hd] at h
      set next : Pos := ⟨current.row + dir.row, current.col + dir.col⟩ with hnext
      by_cases hb : next.row < 0 ∨ next.row ≥ rows ∨ next.col < 0 ∨
          next.col ≥ cols ∨ isObstacle grid next.row next.col = true
      · simp [hb] at h
      · simp only [if_neg hb] at h
        push_neg at hb
        obtain ⟨h1, h2, h3, h4, h5⟩ := hb
        have hvalid : 0 ≤ next.row ∧ next.row < rows ∧ 0 ≤ next.col ∧
            next.col < cols ∧ isObstacle grid next.row next.col = false := by
          refine ⟨by omega, by omega, by omega, by omega, ?_⟩
          simpa using h5
        by_cases hg : next.row = goal.row ∧ next.col = goal.col
        · simp only [if_pos hg] at h
          cases h
          exact hvalid
        · simp only [if_neg hg] at h
          by_cases hdg : dir.row ≠ 0 ∧ dir.col ≠ 0
          · simp only [if_pos hdg] at h
            by_cases hj : (jump grid rows cols goal n next ⟨dir.row, 0⟩ (depth + 1)).isSome ∨
                (jump grid rows cols goal n next ⟨0, dir.col⟩ (depth + 1)).isSome
            · simp only [if_pos hj] at h
              cases h
              exact hvalid
            · simp only [if_neg hj] at h
              exact ih next dir (depth + 1) p h
          · simp only [if_neg hdg] at h
            by_cases hf : hasForcedNeighbor grid rows cols next dir = true
            · simp only [if_pos hf] at h
              cases h
              exact hvalid
            · simp only [if_neg hf] at h
              exact ih next dir (depth + 1) p h

/-- Claim C9: for every grid, scan start and direction, the recursive jump
scan `jump` is a total function returning at most one cell; its explicit
depth guard returns no result as soon as the depth exceeds 100, so no input
causes unbounded recursion, and any cell it returns is an in-bounds free
cell. -/
theorem claimC9 :
    (∀ (grid : Grid) (rows cols : Int) (goal : Pos) (fuel : Nat)
        (current dir : Pos) (depth : Nat), 100 < depth →
        jump grid rows cols goal fuel current dir depth = none) ∧
    (∀ (grid : Grid) (rows cols : Int) (goal : Pos) (fuel : Nat)
        (current dir : Pos) (depth : Nat) (p : Pos),
        jump grid rows cols goal fuel current dir depth = some p →
        0 ≤ p.row ∧ p.row < rows ∧ 0 ≤ p.col ∧ p.col < cols ∧
          isObstacle grid p.row p.col = false) := by
  constructor
  · intro grid rows cols goal fuel current dir depth hd
    cases fuel with
    | zero => rfl
    | succ n => rw [jump]; simp [hd]
  · intro grid rows cols goal fuel current dir depth p h
    exact jump_some_valid grid rows cols goal fuel current dir depth p h

/-- Witness for claim C9: on the 10 × 10 empty grid the guard fires at depth
101, and the rightward scan from the origin returns the goal cell `(0, 9)`,
which the theorem certifies to be in bounds and free. -/
theorem claimC9_witness :
    jump grid10 10 10 ⟨0, 9⟩ 101 ⟨0, 0⟩ ⟨0, 1⟩ 101 = none ∧
    (0 ≤ (9 : Int) ∧ (9 : Int) < 10 ∧ 0 ≤ (9 : Int) ∧ (9 : Int) < 10 ∧
      isObstacle grid10 0 9 = false) := by
  constructor
  · exact claimC9.1 grid10 10 10 ⟨0, 9⟩ 101 ⟨0, 0⟩ ⟨0, 1⟩ 101 (by norm_num)
  · have h : jump grid10 10 10 ⟨0, 9⟩ 101 ⟨0, 0⟩ ⟨0, 1⟩ 0 = some ⟨0, 9⟩ := by rfl
    have := claimC9.2 grid10 10 10 ⟨0, 9⟩ 101 ⟨0, 0⟩ ⟨0, 1⟩ 0 ⟨0, 9⟩ h
    simpa using this

/-! Claim C1: the concrete 10 × 10 scenario. -/

set_option maxRecDepth 8000 in
/-- Full evaluation of the JPS run on the 10 × 10 scenario: the path is the
two jump points, not ten cells. -/
theorem jps10_eval : jps grid10 ⟨0, 0⟩ ⟨0, 9⟩ 10 10 = some
    { path := [⟨0, 0⟩, ⟨0, 9⟩]
      exploredNodes := none
      metrics := { nodesExplored := 2, pathLength := 2,
                   pathCost := calculatePathDistance [⟨0, 0⟩, ⟨0, 9⟩] } } := by
  rfl

/-- Counterexample to claim C1 as stated: on the 10 × 10 empty grid with
start `(0,0)` and goal `(0,9)`, `jps` returns a path with 2 positions, not
10 (its path holds jump points only). -/
theorem claimC1_counterexample :
    ((jps grid10 ⟨0, 0⟩ ⟨0, 9⟩ 10 10).map fun r => r.path.length) = some 2 ∧
      (2 : Nat) ≠ 10 := by
  refine ⟨?_, by norm_num⟩
  rw [jps10_eval]
  rfl

set_option maxRecDepth 20000 in
/-- Claim C1 (amended): on the 10 × 10 empty grid with start `(0,0)` and goal
`(0,9)`, `astar` and `dijkstra` return 10-position paths with `pathCost` 9;
`jps` returns the 2-position jump-point path `[(0,0), (0,9)]`, also with
`pathCost` 9; and `greedyBestFirst` returns a path ending at `(0,9)`. -/
theorem claimC1 :
    ((astar grid10 ⟨0, 0⟩ ⟨0, 9⟩ 10 10).map
        fun r => (r.path.length, r.metrics.pathCost)) = some (10, 9) ∧
    ((dijkstra grid10 ⟨0, 0⟩ ⟨0, 9⟩ 10 10).map
        fun r => (r.path.length, r.metrics.pathCost)) = some (10, 9) ∧
    ((jps grid10 ⟨0, 0⟩ ⟨0, 9⟩ 10 10).map fun r => r.path) =
        some [⟨0, 0⟩, ⟨0, 9⟩] ∧
    ((jps grid10 ⟨0, 0⟩ ⟨0, 9⟩ 10 10).map fun r => r.metrics.pathCost) =
        some 9 ∧
    ((greedyBestFirst grid10 ⟨0, 0⟩ ⟨0, 9⟩ 10 10).map
        fun r => r.path.getLast?) = some (some ⟨0, 9⟩) := by
  refine ⟨by decide, by decide, ?_, ?_, by decide⟩
  · rw [jps10_eval]
    rfl
  · rw [jps10_eval]
    show some (calculatePathDistance [⟨0, 0⟩, ⟨0, 9⟩]) = some 9
    rw [calcDist_row9]

/-! Claim C6 counterexample material: JPS (and Theta*) report the rounded
Euclidean length, which differs from the exact accumulated length. -/

set_option maxRecDepth 8000 in
/-- Full evaluation of the JPS run on the 2 × 2 empty grid from corner to
corner. -/
theorem jps2_eval : jps grid2 ⟨0, 0⟩ ⟨1, 1⟩ 2 2 = some
    { path := [⟨0, 0⟩, ⟨1, 1⟩]
      exploredNodes := none
      metrics := { nodesExplored := 2, pathLength := 2,
                   pathCost := calculatePathDistance [⟨0, 0⟩, ⟨1, 1⟩] } } := by
  rfl

/-- Counterexample to claim C6 as stated: on the 2 × 2 empty grid the JPS
result reports `pathCost = 1.4`, while the accumulated Euclidean length of
its returned path is `√2 ≠ 1.4` — the reported cost is the length rounded to
one decimal, not the length itself. -/
theorem claimC6_counterexample :
    ((jps grid2 ⟨0, 0⟩ ⟨1, 1⟩ 2 2).map fun r => r.metrics.pathCost) =
        some (7 / 5) ∧
    ((jps grid2 ⟨0, 0⟩ ⟨1, 1⟩ 2 2).map fun r => pathEuclid r.path) =
        some (Real.sqrt 2) ∧
    (7 / 5 : ℝ) ≠ Real.sqrt 2 := by
  have hlt : (7 / 5 : ℝ) < Real.sqrt 2 := by
    have h1 : (7 / 5 : ℝ) = Real.sqrt ((7 / 5) ^ 2) := by
      rw [Real.sqrt_sq (by norm_num)]
    rw [h1]
    exact Real.sqrt_lt_sqrt (by norm_num) (by norm_num)
  refine ⟨?_, ?_, ne_of_lt hlt⟩
  · rw [jps2_eval]
    show some (calculatePathDistance [⟨0, 0⟩, ⟨1, 1⟩]) = some (7 / 5)
    rw [calcDist_diag]
  · rw [jps2_eval]
    show some (pathEuclid [(⟨0, 0⟩ : Pos), ⟨1, 1⟩]) = some (Real.sqrt 2)
    rw [pathEuclid_pair, distance_diag]

/-! Claim C2: path legality.  A legal single step joins two in-bounds,
non-obstacle cells that are 4-adjacent. -/

/-- A cell that a path may visit: in bounds and free. -/
def validCell (grid : Grid) (rows cols : Int) (p : Pos) : Prop :=
  inBounds rows cols p ∧ isObstacle grid p.row p.col = false

instance (grid : Grid) (rows cols : Int) (p : Pos) :
    Decidable (validCell grid rows cols p) := by
  unfold validCell; infer_instance

/-- A legal single-step move of the 4-connected grid algorithms. -/
def legalStep (grid : Grid) (rows cols : Int) (a b : Pos) : Prop :=
  validCell grid rows cols a ∧ validCell grid rows cols b ∧
    (a.row - b.row).natAbs + (a.col - b.col).natAbs = 1

instance (grid : Grid) (rows cols : Int) (a b : Pos) :
    Decidable (legalStep grid rows cols a b) := by
  unfold legalStep; infer_instance

/-- Every consecutive pair of a path is a legal single-step move. -/
def pathLegal (grid : Grid) (rows cols : Int) (p : List Pos) : Prop :=
  p.Chain' (legalStep grid rows cols)

instance (grid : Grid) (rows cols : Int) (p : List Pos) :
    Decidable (pathLegal grid rows cols p) := by
  unfold pathLegal; infer_instance

/-- A `cameFrom` map all of whose bindings record a legal step from the
stored predecessor to the key. -/
def mapsLegal (grid : Grid) (rows cols : Int)
    (cameFrom : List (Pos × Pos)) : Prop :=
  ∀ e ∈ cameFrom, legalStep grid rows cols e.2 e.1

/-- A queue all of whose elements are valid cells. -/
def queueValid (grid : Grid) (rows cols : Int) (q : List (Pos × Nat)) : Prop :=
  ∀ e ∈ q, validCell grid rows cols e.1

/-- Lookup success implies list membership. -/
theorem alGet_some_mem {κ β : Type} [DecidableEq κ] {m : List (κ × β)}
    {k : κ} {v : β} (h : alGet m k = some v) : (k, v) ∈ m := by
  rw [alGet] at h
  rcases Option.map_eq_some'.mp h with ⟨e, he, hv⟩
  have hmem := List.mem_of_find?_eq_some he
  have hp := List.find?_some he
  have hk : e.1 = k := by simpa using hp
  have : e = (k, v) := by
    cases e
    simp only at hk hv
    simp [hk, hv]
  rwa [this] at hmem

/-- Membership after `alSet` comes from the new binding or an old one. -/
theorem alSet_mem {κ β : Type} [DecidableEq κ] {m : List (κ × β)}
    {k : κ} {v : β} {e : κ × β} (h : e ∈ alSet m k v) :
    e = (k, v) ∨ e ∈ m := by
  rw [alSet] at h
  by_cases hh : alHas m k
  · rw [if_pos hh] at h
    rcases List.mem_map.mp h with ⟨x, hx, hfx⟩
    by_cases hxk : x.1 = k
    · rw [if_pos hxk] at hfx
      exact Or.inl hfx.symm
    · rw [if_neg hxk] at hfx
      exact Or.inr (hfx ▸ hx)
  · rw [if_neg hh] at h
    rcases List.mem_append.mp h with hm | hm
    · exact Or.inr hm
    · exact Or.inl (by simpa using hm)

/-- Membership after `pqEnqueue` comes from the new element or an old one. -/
theorem pqEnqueue_mem {α π : Type} [LinearOrder π] {q : List (α × π)}
    {x : α} {p : π} {e : α × π} (h : e ∈ pqEnqueue q x p) :
    e = (x, p) ∨ e ∈ q := by
  induction q with
  | nil => simpa [pqEnqueue] using h
  | cons hd tl ih =>
    rw [pqEnqueue] at h
    by_cases hc : p < hd.2
    · cases hd
      rw [if_pos hc] at h
      rcases List.mem_cons.mp h with h1 | h1
      · exact Or.inl h1
      · exact Or.inr h1
    · cases hd
      rw [if_neg hc] at h
      rcases List.mem_cons.mp h with h1 | h1
      · exact Or.inr (List.mem_cons.mpr (Or.inl h1))
      · rcases ih h1 with h2 | h2
        · exact Or.inl h2
        · exact Or.inr (List.mem_cons.mpr (Or.inr h2))

/-- A 4-connected neighbor is a valid cell one step away. -/
theorem getNeighbors_mem {cell : Pos} {grid : Grid} {rows cols : Int}
    {nb : Pos} (h : nb ∈ getNeighbors cell grid rows cols false) :
    validCell grid rows cols nb ∧
      (cell.row - nb.row).natAbs + (cell.col - nb.col).natAbs = 1 := by
  rw [getNeighbors, neighborDirs] at h
  simp only [if_neg Bool.false_ne_true, List.append_nil] at h
  rcases List.mem_filterMap.mp h with ⟨d, hd, hok⟩
  have hsplit :
      (if 0 ≤ cell.row + d.row ∧ cell.row + d.row < rows ∧ 0 ≤ cell.col + d.col ∧
          cell.col + d.col < cols ∧
          isObstacle grid (cell.row + d.row) (cell.col + d.col) = false then
        some (⟨cell.row + d.row, cell.col + d.col⟩ : Pos)
      else none) = some nb := hok
  by_cases hc : 0 ≤ cell.row + d.row ∧ cell.row + d.row < rows ∧
      0 ≤ cell.col + d.col ∧ cell.col + d.col < cols ∧
      isObstacle grid (cell.row + d.row) (cell.col + d.col) = false
  · rw [if_pos hc] at hsplit
    obtain ⟨h1, h2, h3, h4, h5⟩ := hc
    cases hsplit
    refine ⟨⟨⟨h1, h2, h3, h4⟩, h5⟩, ?_⟩
    fin_cases hd <;> simp
  · rw [if_neg hc] at hsplit
    exact absurd hsplit (by simp)

/-- The reconstructed path always ends at the cell it was started from. -/
theorem reconstructPath_getLast (cameFrom : List (Pos × Pos)) (current : Pos) :
    ∀ fuel : Nat, (reconstructPath cameFrom current fuel).getLast? = some current := by
  intro fuel
  induction fuel generalizing current with
  | zero => rfl
  | succ n ih =>
    rw [reconstructPath]
    cases halGet : alGet cameFrom current with
    | none => rfl
    | some prev => simp

/-- On a `cameFrom` map whose bindings are legal steps, every reconstructed
path is legal, whatever the fuel. -/
theorem reconstructPath_legal {grid : Grid} {rows cols : Int}
    {cameFrom : List (Pos × Pos)} (hm : mapsLegal grid rows cols cameFrom)
    (current : Pos) :
    ∀ fuel : Nat, pathLegal grid rows cols (reconstructPath cameFrom current fuel) := by
  intro fuel
  induction fuel generalizing current with
  | zero => simp [reconstructPath, pathLegal]
  | succ n ih =>
    rw [reconstructPath]
    cases halGet : alGet cameFrom current with
    | none => simp [pathLegal]
    | some prev =>
      have hmem : (current, prev) ∈ cameFrom := alGet_some_mem halGet
      have hstep : legalStep grid rows cols prev current := hm _ hmem
      rw [pathLegal, List.chain'_append]
      refine ⟨ih prev, by simp [pathLegal], ?_⟩
      intro x hx y hy
      rw [reconstructPath_getLast] at hx
      cases hx
      simp only [List.head?] at hy
      cases hy
      exact hstep

/-! Preservation of the legality invariant by the A*, Dijkstra and Greedy
loops. -/

/-- One A* relaxation preserves the invariant. -/
theorem astarRelax_pres {grid : Grid} {rows cols : Int} (goal : Pos)
    {current : Pos} {g : Nat} {s : AStarSt} {nb : Pos}
    (hq : queueValid grid rows cols s.queue)
    (hm : mapsLegal grid rows cols s.cameFrom)
    (hcur : validCell grid rows cols current)
    (hnb : validCell grid rows cols nb ∧
      (current.row - nb.row).natAbs + (current.col - nb.col).natAbs = 1) :
    queueValid grid rows cols (astarRelax goal current g s nb).queue ∧
      mapsLegal grid rows cols (astarRelax goal current g s nb).cameFrom := by
  rw [astarRelax]
  by_cases h1 : nb ∈ s.visited
  · rw [if_pos h1]; exact ⟨hq, hm⟩
  · rw [if_neg h1]
    by_cases h2 : alHas s.gScore nb = false ∨
        g + 1 < (alGet s.gScore nb).getD 0
    · rw [if_pos h2]
      constructor
      · intro e he
        rcases pqEnqueue_mem he with he1 | he1
        · rw [he1]; exact hnb.1
        · exact hq e he1
      · intro e he
        rcases alSet_mem he with he1 | he1
        · rw [he1]
          exact ⟨hcur, hnb.1, hnb.2⟩
        · exact hm e he1
    · rw [if_neg h2]; exact ⟨hq, hm⟩

/-- Folding A* relaxation over actual neighbors preserves the invariant. -/
theorem astarFold_pres {grid : Grid} {rows cols : Int} (goal : Pos)
    {current : Pos} {g : Nat} (hcur : validCell grid rows cols current) :
    ∀ (l : List Pos) (s : AStarSt),
      (∀ nb ∈ l, validCell grid rows cols nb ∧
        (current.row - nb.row).natAbs + (current.col - nb.col).natAbs = 1) →
      queueValid grid rows cols s.queue →
      mapsLegal grid rows cols s.cameFrom →
      queueValid grid rows cols (l.foldl (astarRelax goal current g) s).queue ∧
        mapsLegal grid rows cols (l.foldl (astarRelax goal current g) s).cameFrom := by
  intro l
  induction l with
  | nil => intro s _ hq hm; exact ⟨hq, hm⟩
  | cons hd tl ih =>
    intro s hl hq hm
    have hhd := hl hd (List.mem_cons_self hd tl)
    have hstep := astarRelax_pres goal (g := g) hq hm hcur hhd
    rw [List.foldl_cons]
    exact ih _ (fun nb hnb => hl nb (List.mem_cons_of_mem hd hnb))
      hstep.1 hstep.2

/-- The A* loop only returns legal paths from invariant states. -/
theorem astarLoop_legal {grid : Grid} {rows cols : Int} {goal : Pos} :
    ∀ (fuel : Nat) (s : AStarSt) (r : GridResultN),
      queueValid grid rows cols s.queue →
      mapsLegal grid rows cols s.cameFrom →
      astarLoop grid rows cols goal fuel s = some r →
      pathLegal grid rows cols r.path := by
  intro fuel
  induction fuel with
  | zero => intro s r _ _ h; simp [astarLoop] at h
  | succ n ih =>
    intro s r hq hm h
    rw [astarLoop] at h
    cases hqs : s.queue with
    | nil => rw [hqs] at h; simp at h
    | cons hd tl =>
      rw [hqs] at h
      simp only at h
      have hcur : validCell grid rows cols hd.1 := hq hd (hqs ▸ List.mem_cons_self hd tl)
      rw [astarStep, hqs] at h
      simp only at h
      rcases hd with ⟨current, pr⟩
      by_cases hg : current = goal
      · rw [if_pos hg] at h
        have := Option.some.inj h
        rw [← this]
        exact reconstructPath_legal hm current (s.cameFrom.length + 1)
      · rw [if_neg hg] at h
        set s1 : AStarSt :=
          { s with
            queue := tl
            visited := setAdd s.visited current
            nodesExplored := s.nodesExplored + 1 } with hs1
        have hq1 : queueValid grid rows cols s1.queue := by
          intro e he
          exact hq e (hqs ▸ List.mem_cons_of_mem _ he)
        have hfold := astarFold_pres goal
          (g := (alGet s.gScore current).getD 0) hcur
          (getNeighbors current grid rows cols false) s1
          (fun nb hnb => getNeighbors_mem hnb) hq1 hm
        exact ih _ r hfold.1 hfold.2 h

/-- One Dijkstra relaxation preserves the invariant. -/
theorem dijkstraRelax_pres {grid : Grid} {rows cols : Int} {current : Pos}
    {d : Nat} {s : DijkstraSt} {nb : Pos}
    (hq : queueValid grid rows cols s.queue)
    (hm : mapsLegal grid rows cols s.cameFrom)
    (hcur : validCell grid rows cols current)
    (hnb : validCell grid rows cols nb ∧
      (current.row - nb.row).natAbs + (current.col - nb.col).natAbs = 1) :
    queueValid grid rows cols (dijkstraRelax current d s nb).queue ∧
      mapsLegal grid rows cols (dijkstraRelax current d s nb).cameFrom := by
  rw [dijkstraRelax]
  by_cases h1 : nb ∈ s.visited
  · rw [if_pos h1]; exact ⟨hq, hm⟩
  · rw [if_neg h1]
    by_cases h2 : alHas s.distance nb = false ∨
        d + 1 < (alGet s.distance nb).getD 0
    · rw [if_pos h2]
      constructor
      · intro e he
        rcases pqEnqueue_mem he with he1 | he1
        · rw [he1]; exact hnb.1
        · exact hq e he1
      · intro e he
        rcases alSet_mem he with he1 | he1
        · rw [he1]
          exact ⟨hcur, hnb.1, hnb.2⟩
        · exact hm e he1
    · rw [if_neg h2]; exact ⟨hq, hm⟩

/-- Folding Dijkstra relaxation over actual neighbors preserves the
invariant. -/
theorem dijkstraFold_pres {grid : Grid} {rows cols : Int} {current : Pos}
    {d : Nat} (hcur : validCell grid rows cols current) :
    ∀ (l : List Pos) (s : DijkstraSt),
      (∀ nb ∈ l, validCell grid rows cols nb ∧
        (current.row - nb.row).natAbs + (current.col - nb.col).natAbs = 1) →
      queueValid grid rows cols s.queue →
      mapsLegal grid rows cols s.cameFrom →
      queueValid grid rows cols (l.foldl (dijkstraRelax current d) s).queue ∧
        mapsLegal grid rows cols (l.foldl (dijkstraRelax current d) s).cameFrom := by
  intro l
  induction l with
  | nil => intro s _ hq hm; exact ⟨hq, hm⟩
  | cons hd tl ih =>
    intro s hl hq hm
    have hhd := hl hd (List.mem_cons_self hd tl)
    have hstep := dijkstraRelax_pres (d := d) hq hm hcur hhd
    rw [List.foldl_cons]
    exact ih _ (fun nb hnb => hl nb (List.mem_cons_of_mem hd hnb))
      hstep.1 hstep.2

/-- The Dijkstra loop only returns legal paths from invariant states. -/
theorem dijkstraLoop_legal {grid : Grid} {rows cols : Int} {goal : Pos} :
    ∀ (fuel : Nat) (s : DijkstraSt) (r : GridResultN),
      queueValid grid rows cols s.queue →
      mapsLegal grid rows cols s.cameFrom →
      dijkstraLoop grid rows cols goal fuel s = some r →
      pathLegal grid rows cols r.path := by
  intro fuel
  induction fuel with
  | zero => intro s r _ _ h; simp [dijkstraLoop] at h
  | succ n ih =>
    intro s r hq hm h
    rw [dijkstraLoop] at h
    cases hqs : s.queue with
    | nil => rw [hqs] at h; simp at h
    | cons hd tl =>
      rw [hqs] at h
      simp only at h
      have hcur : validCell grid rows cols hd.1 :=
        hq hd (hqs ▸ List.mem_cons_self hd tl)
      rw [dijkstraStep, hqs] at h
      simp only at h
      rcases hd with ⟨current, pr⟩
      have hqtl : queueValid grid rows cols tl := by
        intro e he
        exact hq e (hqs ▸ List.mem_cons_of_mem _ he)
      by_cases hv : current ∈ s.visited
      · rw [if_pos hv] at h
        simp only at h
        exact ih { s with queue := tl } r hqtl hm h
      · rw [if_neg hv] at h
        by_cases hg : current = goal
        · rw [if_pos hg] at h
          simp only at h
          have := Option.some.inj h
          rw [← this]
          exact reconstructPath_legal hm current (s.cameFrom.length + 1)
        · rw [if_neg hg] at h
          simp only at h
          have hfold := dijkstraFold_pres
            (d := (alGet s.distance current).getD 0) hcur
            (getNeighbors current grid rows cols false)
            ({ s with
                queue := tl
                visited := setAdd s.visited current
                nodesExplored := s.nodesExplored + 1 })
            (fun nb hnb => getNeighbors_mem hnb) hqtl hm
          exact ih _ r hfold.1 hfold.2 h

/-- The explicit A* result on the 10 × 10 scenario. -/
def astar10Result : GridResultN :=
  { path := [⟨0, 0⟩, ⟨0, 1⟩, ⟨0, 2⟩, ⟨0, 3⟩, ⟨0, 4⟩, ⟨0, 5⟩, ⟨0, 6⟩, ⟨0, 7⟩,
             ⟨0, 8⟩, ⟨0, 9⟩]
    exploredNodes := none
    metrics := { nodesExplored := 9, pathLength := 10, pathCost := 9 } }

set_option maxRecDepth 20000 in
/-- Full evaluation of the A* run on the 10 × 10 scenario. -/
theorem astar10_eval :
    astar grid10 ⟨0, 0⟩ ⟨0, 9⟩ 10 10 = some astar10Result := by
  decide

/-- A legal step has Euclidean length exactly 1. -/
theorem distance_legalStep {grid : Grid} {rows cols : Int} {a b : Pos}
    (h : legalStep grid rows cols a b) : distance a b = 1 := by
  obtain ⟨_, _, habs⟩ := h
  have hcases : (a.row - b.row).natAbs = 1 ∧ (a.col - b.col).natAbs = 0 ∨
      (a.row - b.row).natAbs = 0 ∧ (a.col - b.col).natAbs = 1 := by omega
  have hinner : ((a.row : ℝ) - (b.row : ℝ)) ^ 2 + ((a.col : ℝ) - (b.col : ℝ)) ^ 2 = 1 := by
    rcases hcases with ⟨h1, h2⟩ | ⟨h1, h2⟩
    · have hr : a.row - b.row = 1 ∨ a.row - b.row = -1 := by omega
      have hc : a.col - b.col = 0 := by omega
      have hcr : (a.col : ℝ) - (b.col : ℝ) = 0 := by
        have := congrArg (fun z : Int => (z : ℝ)) hc
        push_cast at this
        linarith
      rcases hr with hr | hr <;>
      · have := congrArg (fun z : Int => (z : ℝ)) hr
        push_cast at this
        rw [hcr]
        nlinarith
    · have hr : a.row - b.row = 0 := by omega
      have hc : a.col - b.col = 1 ∨ a.col - b.col = -1 := by omega
      have hrr : (a.row : ℝ) - (b.row : ℝ) = 0 := by
        have := congrArg (fun z : Int => (z : ℝ)) hr
        push_cast at this
        linarith
      rcases hc with hc | hc <;>
      · have := congrArg (fun z : Int => (z : ℝ)) hc
        push_cast at this
        rw [hrr]
        nlinarith
  rw [distance, hinner, Real.sqrt_one]

/-- The Euclidean length of a legal path is its step count. -/
theorem pathEuclid_of_legal {grid : Grid} {rows cols : Int} :
    ∀ p : List Pos, pathLegal grid rows cols p →
      pathEuclid p = ((p.length - 1 : Nat) : ℝ) := by
  intro p
  induction p with
  | nil => intro _; simp [pathEuclid]
  | cons a tl ih =>
    intro h
    cases tl with
    | nil => simp [pathEuclid]
    | cons b rest =>
      rw [pathLegal, List.chain'_cons] at h
      have hd : distance a b = 1 := distance_legalStep h.1
      have htl := ih h.2
      rw [pathEuclid, hd, htl]
      simp only [List.length_cons]
      push_cast [Nat.succ_sub_one]
      ring

/-- Every A* result reports `pathCost = path.length - 1` and
`pathLength = path.length`. -/
theorem astarLoop_cost {grid : Grid} {rows cols : Int} {goal : Pos} :
    ∀ (fuel : Nat) (s : AStarSt) (r : GridResultN),
      astarLoop grid rows cols goal fuel s = some r →
      r.metrics.pathCost = r.path.length - 1 ∧
        r.metrics.pathLength = r.path.length := by
  intro fuel
  induction fuel with
  | zero => intro s r h; simp [astarLoop] at h
  | succ n ih =>
    intro s r h
    rw [astarLoop] at h
    cases hqs : s.queue with
    | nil => rw [hqs] at h; simp at h
    | cons hd tl =>
      rw [hqs] at h
      simp only at h
      rw [astarStep, hqs] at h
      simp only at h
      rcases hd with ⟨current, pr⟩
      by_cases hg : current = goal
      · rw [if_pos hg] at h
        have := Option.some.inj h
        rw [← this]
        exact ⟨rfl, rfl⟩
      · rw [if_neg hg] at h
        exact ih _ r h

/-- Every Dijkstra result reports `pathCost = path.length - 1`. -/
theorem dijkstraLoop_cost {grid : Grid} {rows cols : Int} {goal : Pos} :
    ∀ (fuel : Nat) (s : DijkstraSt) (r : GridResultN),
      dijkstraLoop grid rows cols goal fuel s = some r →
      r.metrics.pathCost = r.path.length - 1 ∧
        r.metrics.pathLength = r.path.length := by
  intro fuel
  induction fuel with
  | zero => intro s r h; simp [dijkstraLoop] at h
  | succ n ih =>
    intro s r h
    rw [dijkstraLoop] at h
    cases hqs : s.queue with
    | nil => rw [hqs] at h; simp at h
    | cons hd tl =>
      rw [hqs] at h
      simp only at h
      rw [dijkstraStep, hqs] at h
      simp only at h
      rcases hd with ⟨current, pr⟩
      by_cases hv : current ∈ s.visited
      · rw [if_pos hv] at h
        simp only at h
        exact ih _ r h
      · rw [if_neg hv] at h
        by_cases hg : current = goal
        · rw [if_pos hg] at h
          simp only at h
          have := Option.some.inj h
          rw [← this]
          exact ⟨rfl, rfl⟩
        · rw [if_neg hg] at h
          simp only at h
          exact ih _ r h

/-- Every Greedy result reports `pathCost = path.length - 1`. -/
theorem greedyLoop_cost {grid : Grid} {rows cols : Int} {goal : Pos} :
    ∀ (fuel : Nat) (s : GreedySt) (r : GridResultN),
      greedyLoop grid rows cols goal fuel s = some r →
      r.metrics.pathCost = r.path.length - 1 ∧
        r.metrics.pathLength = r.path.length := by
  intro fuel
  induction fuel with
  | zero => intro s r h; simp [greedyLoop] at h
  | succ n ih =>
    intro s r h
    rw [greedyLoop] at h
    cases hqs : s.queue with
    | nil => rw [hqs] at h; simp at h
    | cons hd tl =>
      rw [hqs] at h
      simp only at h
      rw [greedyStep, hqs] at h
      simp only at h
      rcases hd with ⟨current, pr⟩
      by_cases hv : current ∈ s.visited
      · rw [if_pos hv] at h
        simp only at h
        exact ih _ r h
      · rw [if_neg hv] at h
        by_cases hg : current = goal
        · rw [if_pos hg] at h
          simp only at h
          have := Option.some.inj h
          rw [← this]
          exact ⟨rfl, rfl⟩
        · rw [if_neg hg] at h
          simp only at h
          exact ih _ r h

/-- Every JPS result reports `pathCost = calculatePathDistance path`. -/
theorem jpsLoop_cost {grid : Grid} {rows cols : Int} {goal : Pos} :
    ∀ (fuel : Nat) (s : RSearchSt) (r : GridResultR),
      jpsLoop grid rows cols goal fuel s = some r →
      r.metrics.pathCost = calculatePathDistance r.path := by
  intro fuel
  induction fuel with
  | zero => intro s r h; simp [jpsLoop] at h
  | succ n ih =>
    intro s r h
    rw [jpsLoop] at h
    cases hqs : s.queue with
    | nil => rw [hqs] at h; simp at h
    | cons hd tl =>
      rw [hqs] at h
      simp only at h
      rw [jpsStep, hqs] at h
      simp only at h
      rcases hd with ⟨current, pr⟩
      by_cases hv : current ∈ s.visited
      · rw [if_pos hv] at h
        simp only at h
        exact ih _ r h
      · rw [if_neg hv] at h
        by_cases hg : current = goal
        · rw [if_pos hg] at h
          simp only at h
          have := Option.some.inj h
          rw [← this]
        · rw [if_neg hg] at h
          simp only at h
          exact ih _ r h

/-- Every Theta* result reports `pathCost = calculatePathDistance path`. -/
theorem thetaLoop_cost {grid : Grid} {rows cols : Int} {goal : Pos} :
    ∀ (fuel : Nat) (s : RSearchSt) (r : GridResultR),
      thetaLoop grid rows cols goal fuel s = some r →
      r.metrics.pathCost = calculatePathDistance r.path := by
  intro fuel
  induction fuel with
  | zero => intro s r h; simp [thetaLoop] at h
  | succ n ih =>
    intro s r h
    rw [thetaLoop] at h
    cases hqs : s.queue with
    | nil => rw [hqs] at h; simp at h
    | cons hd tl =>
      rw [hqs] at h
      simp only at h
      rw [thetaStep, hqs] at h
      simp only at h
      rcases hd with ⟨current, pr⟩
      by_cases hv : current ∈ s.visited
      · rw [if_pos hv] at h
        simp only at h
        exact ih _ r h
      · rw [if_neg hv] at h
        by_cases hg : current = goal
        · rw [if_pos hg] at h
          simp only at h
          have := Option.some.inj h
          rw [← this]
        · rw [if_neg hg] at h
          simp only at h
          exact ih _ r h

/-- Claim C6 (amended): `astar` and `dijkstra` report `pathCost` as the step
count `path.length - 1`, which for their unit-step paths equals the exact
accumulated Euclidean length; `jps` and `thetaStar` report the accumulated
Euclidean length rounded to one decimal place (not the exact length, as the
counterexample shows); and `greedyBestFirst` reports the step count. -/
theorem claimC6 :
    (∀ (grid : Grid) (start goal : Pos) (rows cols : Int) (r : GridResultN),
      validCell grid rows cols start →
      astar grid start goal rows cols = some r →
      r.metrics.pathCost = r.path.length - 1 ∧
        (r.metrics.pathCost : ℝ) = pathEuclid r.path) ∧
    (∀ (grid : Grid) (start goal : Pos) (rows cols : Int) (r : GridResultN),
      validCell grid rows cols start →
      dijkstra grid start goal rows cols = some r →
      r.metrics.pathCost = r.path.length - 1 ∧
        (r.metrics.pathCost : ℝ) = pathEuclid r.path) ∧
    (∀ (grid : Grid) (start goal : Pos) (rows cols : Int) (r : GridResultN),
      greedyBestFirst grid start goal rows cols = some r →
      r.metrics.pathCost = r.path.length - 1) ∧
    (∀ (grid : Grid) (start goal : Pos) (rows cols : Int) (r : GridResultR),
      jps grid start goal rows cols = some r →
      r.metrics.pathCost = roundTenth (pathEuclid r.path)) ∧
    (∀ (grid : Grid) (start goal : Pos) (rows cols : Int) (r : GridResultR),
      thetaStar grid start goal rows cols = some r →
      r.metrics.pathCost = roundTenth (pathEuclid r.path)) := by
  refine ⟨?_, ?_, ?_, ?_, ?_⟩
  · intro grid start goal rows cols r hstart h
    have hcost := astarLoop_cost (gridFuel rows cols) (astarInit start goal) r h
    have hlegal : pathLegal grid rows cols r.path := by
      refine astarLoop_legal (gridFuel rows cols) (astarInit start goal) r ?_ ?_ h
      · intro e he
        rw [astarInit] at he
        rcases pqEnqueue_mem he with he1 | he1
        · rw [he1]; exact hstart
        · simp at he1
      · intro e he
        simp [astarInit] at he
    refine ⟨hcost.1, ?_⟩
    rw [hcost.1, pathEuclid_of_legal r.path hlegal]
  · intro grid start goal rows cols r hstart h
    have hcost := dijkstraLoop_cost (gridFuel rows cols) (dijkstraInit start) r h
    have hlegal : pathLegal grid rows cols r.path := by
      refine dijkstraLoop_legal (gridFuel rows cols) (dijkstraInit start) r ?_ ?_ h
      · intro e he
        rw [dijkstraInit] at he
        rcases pqEnqueue_mem he with he1 | he1
        · rw [he1]; exact hstart
        · simp at he1
      · intro e he
        simp [dijkstraInit] at he
    refine ⟨hcost.1, ?_⟩
    rw [hcost.1, pathEuclid_of_legal r.path hlegal]
  · intro grid start goal rows cols r h
    exact (greedyLoop_cost (gridFuel rows cols) (greedyInit start goal) r h).1
  · intro grid start goal rows cols r h
    exact jpsLoop_cost (gridFuel rows cols) (rSearchInit start goal) r h
  · intro grid start goal rows cols r h
    exact thetaLoop_cost (gridFuel rows cols) (rSearchInit start goal) r h

/-- Witness for claim C6: its A* clause instantiated on the concrete
10 × 10 run, and its JPS clause instantiated on the concrete 2 × 2 run. -/
theorem claimC6_witness :
    (validCell grid10 10 10 ⟨0, 0⟩ ∧
      astar10Result.metrics.pathCost = astar10Result.path.length - 1 ∧
        (astar10Result.metrics.pathCost : ℝ) = pathEuclid astar10Result.path) ∧
    calculatePathDistance [(⟨0, 0⟩ : Pos), ⟨1, 1⟩] =
      roundTenth (pathEuclid [(⟨0, 0⟩ : Pos), ⟨1, 1⟩]) := by
  constructor
  · exact ⟨by decide,
      claimC6.1 grid10 ⟨0, 0⟩ ⟨0, 9⟩ 10 10 astar10Result (by decide) astar10_eval⟩
  · have h := claimC6.2.2.2.1 grid2 ⟨0, 0⟩ ⟨1, 1⟩ 2 2 _ jps2_eval
    simpa using h

/-! Claim C3: dequeues of already-closed nodes.  Every search loop except
grid A* checks the visited set immediately after dequeuing and skips the
whole iteration; grid A* performs no such check. -/

/-- A 1 × 2 empty grid for the stale-dequeue counterexample. -/
def grid1x2 : Grid := emptyGrid 1 2

/-- An A* state about to dequeue the already-visited cell `(0,0)` (such
states arise in real runs whenever a stale queue entry survives a node's
closure). -/
def cexAStarState : AStarSt :=
  { queue := [(⟨0, 0⟩, 2)]
    cameFrom := []
    gScore := [(⟨0, 0⟩, 0)]
    fScore := [(⟨0, 0⟩, 2)]
    visited := [⟨0, 0⟩]
    nodesExplored := 0 }

/-- The state grid A* actually produces from `cexAStarState`: the counter is
incremented and the neighbor `(0,1)` is expanded. -/
def cexAStarStateAfter : AStarSt :=
  { queue := [(⟨0, 1⟩, 1)]
    cameFrom := [(⟨0, 1⟩, ⟨0, 0⟩)]
    gScore := [(⟨0, 0⟩, 0), (⟨0, 1⟩, 1)]
    fScore := [(⟨0, 0⟩, 2), (⟨0, 1⟩, 1)]
    visited := [⟨0, 0⟩]
    nodesExplored := 1 }

/-- Counterexample to claim C3 as stated: grid A* dequeues the closed cell
`(0,0)` and the iteration is not a no-op — `nodesExplored` is incremented
and the score and predecessor maps and the queue are modified. -/
theorem claimC3_counterexample :
    cexAStarState.queue.head? = some (⟨0, 0⟩, 2) ∧
    (⟨0, 0⟩ : Pos) ∈ cexAStarState.visited ∧
    astarStep grid1x2 1 2 ⟨0, 1⟩ cexAStarState = .next cexAStarStateAfter ∧
    cexAStarStateAfter.nodesExplored ≠ cexAStarState.nodesExplored ∧
    cexAStarStateAfter.gScore ≠ cexAStarState.gScore := by
  refine ⟨by decide, by decide, by decide, by decide, by decide⟩

/-- Claim C3 (amended): in every search loop except grid A* — Dijkstra,
Greedy Best-First, JPS and Theta* on the grid, and A*, Dijkstra and Greedy
on the navmesh — dequeuing a node that is already in the closed set is a
no-op: the iteration only removes the stale queue head, leaving the visited
set, the exploration trace, `nodesExplored`, and every score and predecessor
map unchanged.  Grid A* lacks the dequeue-time check (see the
counterexample). -/
theorem claimC3 :
    (∀ (grid : Grid) (rows cols : Int) (goal : Pos) (s : DijkstraSt)
        (current : Pos) (pr : Nat) (rest : List (Pos × Nat)),
      s.queue = (current, pr) :: rest → current ∈ s.visited →
      dijkstraStep grid rows cols goal s = .next { s with queue := rest }) ∧
    (∀ (grid : Grid) (rows cols : Int) (goal : Pos) (s : GreedySt)
        (current : Pos) (pr : Nat) (rest : List (Pos × Nat)),
      s.queue = (current, pr) :: rest → current ∈ s.visited →
      greedyStep grid rows cols goal s = .next { s with queue := rest }) ∧
    (∀ (grid : Grid) (rows cols : Int) (goal : Pos) (s : RSearchSt)
        (current : Pos) (pr : ℝ) (rest : List (Pos × ℝ)),
      s.queue = (current, pr) :: rest → current ∈ s.visited →
      jpsStep grid rows cols goal s = .next { s with queue := rest }) ∧
    (∀ (grid : Grid) (rows cols : Int) (goal : Pos) (s : RSearchSt)
        (current : Pos) (pr : ℝ) (rest : List (Pos × ℝ)),
      s.queue = (current, pr) :: rest → current ∈ s.visited →
      thetaStep grid rows cols goal s = .next { s with queue := rest }) ∧
    (∀ (nm : NavMesh) (adjacency : List (Nat × List (Nat × Int)))
        (start goal : Pos) (goalWp : Waypoint) (goalId : Nat)
        (s : NavAStarSt) (current : Nat) (pr : ℝ) (rest : List (Nat × ℝ)),
      s.queue = (current, pr) :: rest → current ∈ s.visited →
      navAStarStep nm adjacency start goal goalWp goalId s =
        .next { s with queue := rest }) ∧
    (∀ (nm : NavMesh) (adjacency : List (Nat × List (Nat × Int)))
        (start goal : Pos) (grid : Grid) (goalId : Nat)
        (s : NavDijkstraSt) (current : Nat) (pr : ℝ) (rest : List (Nat × ℝ)),
      s.queue = (current, pr) :: rest → current ∈ s.visited →
      navDijkstraStep nm adjacency start goal grid goalId s =
        .next { s with queue := rest }) ∧
    (∀ (nm : NavMesh) (adjacency : List (Nat × List (Nat × Int)))
        (start goal : Pos) (grid : Grid) (goalWp : Waypoint) (goalId : Nat)
        (s : NavGreedySt) (current : Nat) (pr : ℝ) (rest : List (Nat × ℝ)),
      s.queue = (current, pr) :: rest → current ∈ s.visited →
      navGreedyStep nm adjacency start goal grid goalWp goalId s =
        .next { s with queue := rest }) := by
  refine ⟨?_, ?_, ?_, ?_, ?_, ?_, ?_⟩
  · intro grid rows cols goal s current pr rest hqs hv
    rw [dijkstraStep, hqs]
    simp only [if_pos hv]
  · intro grid rows cols goal s current pr rest hqs hv
    rw [greedyStep, hqs]
    simp only [if_pos hv]
  · intro grid rows cols goal s current pr rest hqs hv
    rw [jpsStep, hqs]
    simp only [if_pos hv]
  · intro grid rows cols goal s current pr rest hqs hv
    rw [thetaStep, hqs]
    simp only [if_pos hv]
  · intro nm adjacency start goal goalWp goalId s current pr rest hqs hv
    rw [navAStarStep, hqs]
    simp only [if_pos hv]
  · intro nm adjacency start goal grid goalId s current pr rest hqs hv
    rw [navDijkstraStep, hqs]
    simp only [if_pos hv]
  · intro nm adjacency start goal grid goalWp goalId s current pr rest hqs hv
    rw [navGreedyStep, hqs]
    simp only [if_pos hv]

/-- The empty navmesh used to instantiate the navmesh clauses of the
witness. -/
def emptyNavMesh : NavMesh := { waypoints := [], edges := [] }

/-- Witness for claim C3: each clause instantiated at a concrete state whose
queue head is already visited. -/
theorem claimC3_witness :
    dijkstraStep grid1x2 1 2 ⟨0, 1⟩
        { queue := [(⟨0, 0⟩, 0)], cameFrom := [], distance := [],
          visited := [⟨0, 0⟩], nodesExplored := 3 } =
      .next { queue := [], cameFrom := [], distance := [],
              visited := [⟨0, 0⟩], nodesExplored := 3 } ∧
    greedyStep grid1x2 1 2 ⟨0, 1⟩
        { queue := [(⟨0, 0⟩, 0)], cameFrom := [],
          visited := [⟨0, 0⟩], nodesExplored := 3 } =
      .next { queue := [], cameFrom := [],
              visited := [⟨0, 0⟩], nodesExplored := 3 } ∧
    jpsStep grid1x2 1 2 ⟨0, 1⟩
        { queue := [(⟨0, 0⟩, (0 : ℝ))], cameFrom := [], gScore := [],
          fScore := [], visited := [⟨0, 0⟩], nodesExplored := 3 } =
      .next { queue := [], cameFrom := [], gScore := [],
              fScore := [], visited := [⟨0, 0⟩], nodesExplored := 3 } ∧
    thetaStep grid1x2 1 2 ⟨0, 1⟩
        { queue := [(⟨0, 0⟩, (0 : ℝ))], cameFrom := [], gScore := [],
          fScore := [], visited := [⟨0, 0⟩], nodesExplored := 3 } =
      .next { queue := [], cameFrom := [], gScore := [],
              fScore := [], visited := [⟨0, 0⟩], nodesExplored := 3 } ∧
    navAStarStep emptyNavMesh [] ⟨0, 0⟩ ⟨0, 1⟩ ⟨0, 0, 0⟩ 0
        { queue := [(0, (0 : ℝ))], cameFrom := [], gScore := [], fScore := [],
          visited := [0], visitedNodes := [], nodesExplored := 3 } =
      .next { queue := [], cameFrom := [], gScore := [], fScore := [],
              visited := [0], visitedNodes := [], nodesExplored := 3 } ∧
    navDijkstraStep emptyNavMesh [] ⟨0, 0⟩ ⟨0, 1⟩ grid1x2 0
        { queue := [(0, (0 : ℝ))], cameFrom := [], gScore := [],
          visited := [0], visitedNodes := [], nodesExplored := 3 } =
      .next { queue := [], cameFrom := [], gScore := [],
              visited := [0], visitedNodes := [], nodesExplored := 3 } ∧
    navGreedyStep emptyNavMesh [] ⟨0, 0⟩ ⟨0, 1⟩ grid1x2 ⟨0, 0, 0⟩ 0
        { queue := [(0, (0 : ℝ))], cameFrom := [],
          visited := [0], visitedNodes := [], nodesExplored := 3 } =
      .next { queue := [], cameFrom := [],
              visited := [0], visitedNodes := [], nodesExplored := 3 } := by
  refine ⟨?_, ?_, ?_, ?_, ?_, ?_, ?_⟩
  · exact claimC3.1 grid1x2 1 2 ⟨0, 1⟩ _ ⟨0, 0⟩ 0 [] rfl (by decide)
  · exact claimC3.2.1 grid1x2 1 2 ⟨0, 1⟩ _ ⟨0, 0⟩ 0 [] rfl (by decide)
  · exact claimC3.2.2.1 grid1x2 1 2 ⟨0, 1⟩ _ ⟨0, 0⟩ 0 [] rfl (by decide)
  · exact claimC3.2.2.2.1 grid1x2 1 2 ⟨0, 1⟩ _ ⟨0, 0⟩ 0 [] rfl (by decide)
  · exact claimC3.2.2.2.2.1 emptyNavMesh [] ⟨0, 0⟩ ⟨0, 1⟩ ⟨0, 0, 0⟩ 0 _ 0 0 []
      rfl (by decide)
  · exact claimC3.2.2.2.2.2.1 emptyNavMesh [] ⟨0, 0⟩ ⟨0, 1⟩ grid1x2 0 _ 0 0 []
      rfl (by decide)
  · exact claimC3.2.2.2.2.2.2 emptyNavMesh [] ⟨0, 0⟩ ⟨0, 1⟩ grid1x2 ⟨0, 0, 0⟩ 0
      _ 0 0 [] rfl (by decide)

/-! Claim C4: the `exploredNodes` trace.  The navmesh algorithms return one
whose length always equals `nodesExplored`; the grid algorithms return
results without any `exploredNodes` at all. -/

/-- Grid A* results carry no exploration trace. -/
theorem astarLoop_explored_none {grid : Grid} {rows cols : Int} {goal : Pos} :
    ∀ (fuel : Nat) (s : AStarSt) (r : GridResultN),
      astarLoop grid rows cols goal fuel s = some r →
      r.exploredNodes = none := by
  intro fuel
  induction fuel with
  | zero => intro s r h; simp [astarLoop] at h
  | succ n ih =>
    intro s r h
    rw [astarLoop] at h
    cases hqs : s.queue with
    | nil => rw [hqs] at h; simp at h
    | cons hd tl =>
      rw [hqs] at h
      simp only at h
      rw [astarStep, hqs] at h
      simp only at h
      rcases hd with ⟨current, pr⟩
      by_cases hg : current = goal
      · rw [if_pos hg] at h
        have := Option.some.inj h
        rw [← this]
      · rw [if_neg hg] at h
        exact ih _ r h

/-- One navmesh A* relaxation leaves the trace and the counter unchanged. -/
theorem navAStarRelax_frame (wps : List Waypoint) (goalWp : Waypoint)
    (currentId : Nat) (g : ℝ) (s : NavAStarSt) (nb : Nat × Int) :
    (navAStarRelax wps goalWp currentId g s nb).visitedNodes =
        s.visitedNodes ∧
      (navAStarRelax wps goalWp currentId g s nb).nodesExplored =
        s.nodesExplored := by
  rw [navAStarRelax]
  split_ifs <;> simp
  split_ifs <;> exact ⟨rfl, rfl⟩

/-- Folding navmesh A* relaxation leaves the trace and the counter
unchanged. -/
theorem navAStarFold_frame (wps : List Waypoint) (goalWp : Waypoint)
    (currentId : Nat) (g : ℝ) :
    ∀ (l : List (Nat × Int)) (s : NavAStarSt),
      (l.foldl (navAStarRelax wps goalWp currentId g) s).visitedNodes =
          s.visitedNodes ∧
        (l.foldl (navAStarRelax wps goalWp currentId g) s).nodesExplored =
          s.nodesExplored := by
  intro l
  induction l with
  | nil => intro s; exact ⟨rfl, rfl⟩
  | cons hd tl ih =>
    intro s
    rw [List.foldl_cons]
    have h1 := navAStarRelax_frame wps goalWp currentId g s hd
    have h2 := ih (navAStarRelax wps goalWp currentId g s hd)
    exact ⟨h2.1.trans h1.1, h2.2.trans h1.2⟩

/-- The navmesh A* loop keeps `exploredNodes` and `nodesExplored` in sync. -/
theorem navAStarLoop_explored {nm : NavMesh}
    {adjacency : List (Nat × List (Nat × Int))} {start goal : Pos}
    {goalWp : Waypoint} {goalId : Nat} :
    ∀ (fuel : Nat) (s : NavAStarSt) (r : NavResult),
      s.visitedNodes.length = s.nodesExplored →
      navAStarLoop nm adjacency start goal goalWp goalId fuel s = some r →
      r.exploredNodes.length = r.metrics.nodesExplored := by
  intro fuel
  induction fuel with
  | zero => intro s r _ h; simp [navAStarLoop] at h
  | succ n ih =>
    intro s r hinv h
    rw [navAStarLoop] at h
    cases hqs : s.queue with
    | nil => rw [hqs] at h; simp at h
    | cons hd tl =>
      rw [hqs] at h
      simp only at h
      rw [navAStarStep, hqs] at h
      simp only at h
      rcases hd with ⟨currentId, pr⟩
      by_cases hv : currentId ∈ s.visited
      · rw [if_pos hv] at h
        simp only at h
        exact ih { s with queue := tl } r hinv h
      · rw [if_neg hv] at h
        by_cases hg : currentId = goalId
        · rw [if_pos hg] at h
          simp only at h
          have := Option.some.inj h
          rw [← this]
          simp [hinv]
        · rw [if_neg hg] at h
          simp only at h
          set s1 : NavAStarSt :=
            { s with
              queue := tl
              visited := setAddNat s.visited currentId
              visitedNodes :=
                s.visitedNodes ++ [nm.waypoints.getD currentId ⟨0, 0, 0⟩]
              nodesExplored := s.nodesExplored + 1 } with hs1
          have hframe := navAStarFold_frame nm.waypoints goalWp currentId
            ((alGet s.gScore currentId).getD 0)
            ((alGet adjacency currentId).getD []) s1
          refine ih _ r ?_ h
          rw [hframe.1, hframe.2, hs1]
          simp [hinv]

/-- The result packaging of `buildNavMeshResult` stores the given trace and
counter verbatim. -/
theorem buildNavMeshResult_fields (cameFrom : List (Nat × Nat))
    (goalId : Nat) (nm : NavMesh) (start goal : Pos) (grid : Grid)
    (nodesExplored : Nat) (visitedNodes : List Waypoint) :
    (buildNavMeshResult cameFrom goalId nm start goal grid nodesExplored
        visitedNodes).exploredNodes = visitedNodes ∧
      (buildNavMeshResult cameFrom goalId nm start goal grid nodesExplored
        visitedNodes).metrics.nodesExplored = nodesExplored :=
  ⟨rfl, rfl⟩

/-- One navmesh Dijkstra relaxation leaves the trace and counter
unchanged. -/
theorem navDijkstraRelax_frame (currentId : Nat) (g : ℝ)
    (s : NavDijkstraSt) (nb : Nat × Int) :
    (navDijkstraRelax currentId g s nb).visitedNodes = s.visitedNodes ∧
      (navDijkstraRelax currentId g s nb).nodesExplored = s.nodesExplored := by
  rw [navDijkstraRelax]
  split_ifs <;> simp
  split_ifs <;> exact ⟨rfl, rfl⟩

/-- Folding navmesh Dijkstra relaxation leaves the trace and counter
unchanged. -/
theorem navDijkstraFold_frame (currentId : Nat) (g : ℝ) :
    ∀ (l : List (Nat × Int)) (s : NavDijkstraSt),
      (l.foldl (navDijkstraRelax currentId g) s).visitedNodes =
          s.visitedNodes ∧
        (l.foldl (navDijkstraRelax currentId g) s).nodesExplored =
          s.nodesExplored := by
  intro l
  induction l with
  | nil => intro s; exact ⟨rfl, rfl⟩
  | cons hd tl ih =>
    intro s
    rw [List.foldl_cons]
    have h1 := navDijkstraRelax_frame currentId g s hd
    have h2 := ih (navDijkstraRelax currentId g s hd)
    exact ⟨h2.1.trans h1.1, h2.2.trans h1.2⟩

/-- The navmesh Dijkstra loop keeps `exploredNodes` and `nodesExplored` in
sync. -/
theorem navDijkstraLoop_explored {nm : NavMesh}
    {adjacency : List (Nat × List (Nat × Int))} {start goal : Pos}
    {grid : Grid} {goalId : Nat} :
    ∀ (fuel : Nat) (s : NavDijkstraSt) (r : NavResult),
      s.visitedNodes.length = s.nodesExplored →
      navDijkstraLoop nm adjacency start goal grid goalId fuel s = some r →
      r.exploredNodes.length = r.metrics.nodesExplored := by
  intro fuel
  induction fuel with
  | zero => intro s r _ h; simp [navDijkstraLoop] at h
  | succ n ih =>
    intro s r hinv h
    rw [navDijkstraLoop] at h
    cases hqs : s.queue with
    | nil => rw [hqs] at h; simp at h
    | cons hd tl =>
      rw [hqs] at h
      simp only at h
      rw [navDijkstraStep, hqs] at h
      simp only at h
      rcases hd with ⟨currentId, pr⟩
      by_cases hv : currentId ∈ s.visited
      · rw [if_pos hv] at h
        simp only at h
        exact ih { s with queue := tl } r hinv h
      · rw [if_neg hv] at h
        by_cases hg : currentId = goalId
        · rw [if_pos hg] at h
          simp only at h
          have := Option.some.inj h
          rw [← this]
          rw [(buildNavMeshResult_fields _ _ _ _ _ _ _ _).1,
            (buildNavMeshResult_fields _ _ _ _ _ _ _ _).2]
          simp [hinv]
        · rw [if_neg hg] at h
          simp only at h
          set s1 : NavDijkstraSt :=
            { s with
              queue := tl
              visited := setAddNat s.visited currentId
              visitedNodes :=
                s.visitedNodes ++ [nm.waypoints.getD currentId ⟨0, 0, 0⟩]
              nodesExplored := s.nodesExplored + 1 } with hs1
          have hframe := navDijkstraFold_frame currentId
            ((alGet s.gScore currentId).getD 0)
            ((alGet adjacency currentId).getD []) s1
          refine ih _ r ?_ h
          rw [hframe.1, hframe.2, hs1]
          simp [hinv]

/-- One navmesh Greedy neighbor treatment leaves the trace and counter
unchanged. -/
theorem navGreedyRelax_frame (wps : List Waypoint) (goalWp : Waypoint)
    (currentId : Nat) (s : NavGreedySt) (nb : Nat × Int) :
    (navGreedyRelax wps goalWp currentId s nb).visitedNodes =
        s.visitedNodes ∧
      (navGreedyRelax wps goalWp currentId s nb).nodesExplored =
        s.nodesExplored := by
  rw [navGreedyRelax]
  split_ifs <;> simp

/-- Folding the navmesh Greedy neighbor treatment leaves the trace and
counter unchanged. -/
theorem navGreedyFold_frame (wps : List Waypoint) (goalWp : Waypoint)
    (currentId : Nat) :
    ∀ (l : List (Nat × Int)) (s : NavGreedySt),
      (l.foldl (navGreedyRelax wps goalWp currentId) s).visitedNodes =
          s.visitedNodes ∧
        (l.foldl (navGreedyRelax wps goalWp currentId) s).nodesExplored =
          s.nodesExplored := by
  intro l
  induction l with
  | nil => intro s; exact ⟨rfl, rfl⟩
  | cons hd tl ih =>
    intro s
    rw [List.foldl_cons]
    have h1 := navGreedyRelax_frame wps goalWp currentId s hd
    have h2 := ih (navGreedyRelax wps goalWp currentId s hd)
    exact ⟨h2.1.trans h1.1, h2.2.trans h1.2⟩

/-- The navmesh Greedy loop keeps `exploredNodes` and `nodesExplored` in
sync. -/
theorem navGreedyLoop_explored {nm : NavMesh}
    {adjacency : List (Nat × List (Nat × Int))} {start goal : Pos}
    {grid : Grid} {goalWp : Waypoint} {goalId : Nat} :
    ∀ (fuel : Nat) (s : NavGreedySt) (r : NavResult),
      s.visitedNodes.length = s.nodesExplored →
      navGreedyLoop nm adjacency start goal grid goalWp goalId fuel s =
        some r →
      r.exploredNodes.length = r.metrics.nodesExplored := by
  intro fuel
  induction fuel with
  | zero => intro s r _ h; simp [navGreedyLoop] at h
  | succ n ih =>
    intro s r hinv h
    rw [navGreedyLoop] at h
    cases hqs : s.queue with
    | nil => rw [hqs] at h; simp at h
    | cons hd tl =>
      rw [hqs] at h
      simp only at h
      rw [navGreedyStep, hqs] at h
      simp only at h
      rcases hd with ⟨currentId, pr⟩
      by_cases hv : currentId ∈ s.visited
      · rw [if_pos hv] at h
        simp only at h
        exact ih { s with queue := tl } r hinv h
      · rw [if_neg hv] at h
        by_cases hg : currentId = goalId
        · rw [if_pos hg] at h
          simp only at h
          have := Option.some.inj h
          rw [← this]
          rw [(buildNavMeshResult_fields _ _ _ _ _ _ _ _).1,
            (buildNavMeshResult_fields _ _ _ _ _ _ _ _).2]
          simp [hinv]
        · rw [if_neg hg] at h
          simp only at h
          set s1 : NavGreedySt :=
            { s with
              queue := tl
              visited := setAddNat s.visited currentId
              visitedNodes :=
                s.visitedNodes ++ [nm.waypoints.getD currentId ⟨0, 0, 0⟩]
              nodesExplored := s.nodesExplored + 1 } with hs1
          have hframe := navGreedyFold_frame nm.waypoints goalWp currentId
            ((alGet adjacency currentId).getD []) s1
          refine ih _ r ?_ h
          rw [hframe.1, hframe.2, hs1]
          simp [hinv]

/-- The navmesh RRT loop keeps its exploration list and counter in sync. -/
theorem navRrtLoop_explored {nm : NavMesh} {goal : Pos} {grid : Grid}
    {stream : Nat → RrtChoice} :
    ∀ (iter n : Nat) (tree : RrtTree) (explored : List Pos) (cnt : Nat)
      (r : NavRrtResult),
      explored.length = cnt →
      navRrtLoop nm goal grid stream iter n tree explored cnt = some r →
      r.exploredNodes.length = r.metrics.nodesExplored := by
  intro iter
  induction iter with
  | zero => intro n tree explored cnt r _ h; simp [navRrtLoop] at h
  | succ m ih =>
    intro n tree explored cnt r hinv h
    rw [navRrtLoop] at h
    simp only at h
    split at h
    · exact ih _ _ _ _ r hinv h
    · split at h
      · exact ih _ _ _ _ r hinv h
      · split at h
        · exact ih _ _ _ _ r hinv h
        · split at h
          · have := Option.some.inj h
            rw [← this]
            rw [navRrtResult]
            simp [hinv]
          · exact ih _ _ _ _ r (by simp [hinv]) h

/-- Counterexample to claim C4 as stated: the successful grid A* run of the
concrete scenario returns a result whose `exploredNodes` is absent (the
source grid results carry no such property at all). -/
theorem claimC4_counterexample :
    ((astar grid10 ⟨0, 0⟩ ⟨0, 9⟩ 10 10).map fun r => r.exploredNodes) =
      some none := by
  rw [astar10_eval]
  rfl

/-- Claim C4 (amended): every successful navmesh planning result —
`navmeshAStar`, `navmeshDijkstra`, `navmeshGreedy` and `navmeshRRT` —
contains an `exploredNodes` sequence whose length equals the reported
`metrics.nodesExplored`; the grid-mode results contain no `exploredNodes`
sequence at all (shown here for `astar`; the UI substitutes an empty list). -/
theorem claimC4 :
    (∀ (nm : NavMesh) (start goal : Pos) (grid : Grid) (r : NavResult),
      navmeshAStar nm start goal grid = some r →
      r.exploredNodes.length = r.metrics.nodesExplored) ∧
    (∀ (nm : NavMesh) (start goal : Pos) (grid : Grid) (r : NavResult),
      navmeshDijkstra nm start goal grid = some r →
      r.exploredNodes.length = r.metrics.nodesExplored) ∧
    (∀ (nm : NavMesh) (start goal : Pos) (grid : Grid) (r : NavResult),
      navmeshGreedy nm start goal grid = some r →
      r.exploredNodes.length = r.metrics.nodesExplored) ∧
    (∀ (nm : NavMesh) (start goal : Pos) (grid : Grid)
        (stream : Nat → RrtChoice) (r : NavRrtResult),
      navmeshRRT nm start goal grid stream = some r →
      r.exploredNodes.length = r.metrics.nodesExplored) ∧
    (∀ (grid : Grid) (start goal : Pos) (rows cols : Int) (r : GridResultN),
      astar grid start goal rows cols = some r → r.exploredNodes = none) := by
  refine ⟨?_, ?_, ?_, ?_, ?_⟩
  · intro nm start goal grid r h
    rw [navmeshAStar] at h
    cases h1 : findNearestWaypoint nm.waypoints start grid with
    | none => rw [h1] at h; simp at h
    | some startWp =>
      cases h2 : findNearestWaypoint nm.waypoints goal grid with
      | none => rw [h1, h2] at h; simp at h
      | some goalWp =>
        rw [h1, h2] at h
        simp only at h
        exact navAStarLoop_explored (navFuel nm) _ r rfl h
  · intro nm start goal grid r h
    rw [navmeshDijkstra] at h
    cases h1 : findNearestWaypoint nm.waypoints start grid with
    | none => rw [h1] at h; simp at h
    | some startWp =>
      cases h2 : findNearestWaypoint nm.waypoints goal grid with
      | none => rw [h1, h2] at h; simp at h
      | some goalWp =>
        rw [h1, h2] at h
        simp only at h
        exact navDijkstraLoop_explored (navFuel nm) _ r rfl h
  · intro nm start goal grid r h
    rw [navmeshGreedy] at h
    cases h1 : findNearestWaypoint nm.waypoints start grid with
    | none => rw [h1] at h; simp at h
    | some startWp =>
      cases h2 : findNearestWaypoint nm.waypoints goal grid with
      | none => rw [h1, h2] at h; simp at h
      | some goalWp =>
        rw [h1, h2] at h
        simp only at h
        exact navGreedyLoop_explored (navFuel nm) _ r rfl h
  · intro nm start goal grid stream r h
    rw [navmeshRRT] at h
    exact navRrtLoop_explored 1000 0 _ [] 0 r rfl h
  · intro grid start goal rows cols r h
    exact astarLoop_explored_none (gridFuel rows cols) _ r h

/-! Concrete navmesh instances for the claim C4 witness. -/

/-- A 5 × 5 empty grid. -/
def grid5 : Grid := emptyGrid 5 5

/-- The navmesh the builder produces on `grid5`: the single lattice waypoint
`(2,2)` and no edges. -/
def nm5 : NavMesh := { waypoints := [⟨0, 2, 2⟩], edges := [] }

/-- The result shared by the three navmesh searches on the degenerate query
from `(2,2)` to itself. -/
noncomputable def navRes5 : NavResult :=
  { path := [⟨2, 2⟩]
    exploredNodes := [⟨0, 2, 2⟩]
    metrics := { nodesExplored := 1, pathLength := 1,
                 pathCost := calculatePathDistanceNavMesh [⟨2, 2⟩] }
    waypointPath := [⟨2, 2⟩, ⟨2, 2⟩, ⟨2, 2⟩] }

set_option maxRecDepth 4000 in
/-- Full evaluation of the navmesh A* run on `grid5`. -/
theorem navAStar5_eval :
    navmeshAStar nm5 ⟨2, 2⟩ ⟨2, 2⟩ grid5 = some navRes5 := by
  rfl

set_option maxRecDepth 4000 in
/-- Full evaluation of the navmesh Dijkstra run on `grid5`. -/
theorem navDijkstra5_eval :
    navmeshDijkstra nm5 ⟨2, 2⟩ ⟨2, 2⟩ grid5 = some navRes5 := by
  rfl

set_option maxRecDepth 4000 in
/-- Full evaluation of the navmesh Greedy run on `grid5`. -/
theorem navGreedy5_eval :
    navmeshGreedy nm5 ⟨2, 2⟩ ⟨2, 2⟩ grid5 = some navRes5 := by
  rfl

/-- On a singleton tree the nearest-node scan returns the root. -/
theorem rrtNearest_single (p : Pos × Option Nat) (t : Pos) :
    rrtNearest [p] t = 0 := by
  rw [rrtNearest]
  simp [lt_irrefl]

/-- The distance of the horizontal unit step used in the RRT witness run. -/
theorem distance2D_23 : distance2D ⟨2, 2⟩ ⟨2, 3⟩ = 1 := by
  rw [distance2D]
  norm_num

/-- A point is at distance zero from itself. -/
theorem distance2D_33 : distance2D ⟨2, 3⟩ ⟨2, 3⟩ = 0 := by
  rw [distance2D]
  norm_num

/-- The result of the navmesh RRT witness run. -/
noncomputable def rrtRes5 : NavRrtResult :=
  { path := [⟨2, 2⟩, ⟨2, 3⟩]
    exploredNodes := [⟨2, 3⟩]
    metrics := { nodesExplored := 1, pathLength := 2,
                 pathCost := calculatePathDistanceNavMesh [⟨2, 2⟩, ⟨2, 3⟩] } }

set_option maxRecDepth 4000 in
/-- Full evaluation of the navmesh RRT run on `grid5` with a goal-biased
sampling stream: the first sample reaches the goal. -/
theorem navRrt5_eval :
    navmeshRRT nm5 ⟨2, 2⟩ ⟨2, 3⟩ grid5 (fun _ => .goal) = some rrtRes5 := by
  rw [navmeshRRT, show (1000 : Nat) = 999 + 1 from rfl, navRrtLoop]
  simp only [List.getD_cons_zero, rrtNearest_single, distance2D_23]
  have hcross : pathCrossesObstacleNavMesh ⟨2, 2⟩ ⟨2, 3⟩ grid5 = false := by
    decide
  have hres : navRrtResult [(⟨2, 2⟩, none), (⟨2, 3⟩, some 0)] ⟨2, 3⟩
      [⟨2, 3⟩] 1 = rrtRes5 := by rfl
  norm_num [min_def, jsRound, hcross, distance2D_33]
  split_ifs with hb
  · exact absurd hb (by decide)
  · rw [hres]

/-- Witness for claim C4: all five clauses instantiated — the three navmesh
searches and the navmesh RRT on concrete runs over `grid5` (whose navmesh is
exactly `nm5`), and the grid A* clause on the concrete 10 × 10 run. -/
theorem claimC4_witness :
    generateNavMesh grid5 5 5 = nm5 ∧
    navRes5.exploredNodes.length = navRes5.metrics.nodesExplored ∧
    rrtRes5.exploredNodes.length = rrtRes5.metrics.nodesExplored ∧
    astar10Result.exploredNodes = none := by
  refine ⟨by decide, ?_, ?_, ?_⟩
  · exact claimC4.1 nm5 ⟨2, 2⟩ ⟨2, 2⟩ grid5 navRes5 navAStar5_eval
  · exact claimC4.2.2.2.1 nm5 ⟨2, 2⟩ ⟨2, 3⟩ grid5 (fun _ => .goal) rrtRes5
      navRrt5_eval
  · exact claimC4.2.2.2.2 grid10 ⟨0, 0⟩ ⟨0, 9⟩ 10 10 astar10Result astar10_eval

/-! Claim C8: soundness of the navmesh edges produced by the builder. -/

/-- What the edge-construction guards guarantee for every produced edge. -/
theorem navEdges_mem {wps : List Waypoint} {grid : Grid} {e : Edge}
    (h : e ∈ navEdges wps grid) :
    hasLineOfSight (wpPos (wps.getD e.fromId ⟨0, 0, 0⟩))
        (wpPos (wps.getD e.toId ⟨0, 0, 0⟩)) grid = true ∧
      e.costSq = dsqWp (wps.getD e.fromId ⟨0, 0, 0⟩)
        (wps.getD e.toId ⟨0, 0, 0⟩) ∧
      e.costSq ≤ 225 := by
  rw [navEdges] at h
  rcases List.mem_flatMap.mp h with ⟨i, hi, hj⟩
  rcases List.mem_filterMap.mp hj with ⟨j, hjmem, hjeq⟩
  simp only at hjeq
  by_cases h1 : dsqWp (wps.getD i ⟨0, 0, 0⟩) (wps.getD j ⟨0, 0, 0⟩) > 225
  · rw [if_pos h1] at hjeq
    exact absurd hjeq (by simp)
  · rw [if_neg h1] at hjeq
    by_cases h2 : hasLineOfSight (wpPos (wps.getD i ⟨0, 0, 0⟩))
        (wpPos (wps.getD j ⟨0, 0, 0⟩)) grid = true
    · rw [if_pos h2] at hjeq
      have he := Option.some.inj hjeq
      rw [← he]
      refine ⟨h2, rfl, ?_⟩
      show dsqWp (wps.getD i ⟨0, 0, 0⟩) (wps.getD j ⟨0, 0, 0⟩) ≤ 225
      omega
    · rw [if_neg h2] at hjeq
      exact absurd hjeq (by simp)

/-- The real edge cost interprets the stored square as the Euclidean
distance between the edge's waypoints. -/
theorem edgeCost_eq_distance (a b : Waypoint) :
    Real.sqrt ((dsqWp a b : ℝ)) = distance (wpPos a) (wpPos b) := by
  rw [distance, dsqWp, wpPos, wpPos]
  push_cast
  ring_nf

/-- Claim C8: every edge of a built navmesh joins two waypoints that pass
the rasterized (Bresenham) line-of-sight test, lie at Euclidean distance at
most 15 from each other, and the edge's stored cost is exactly that
Euclidean distance. -/
theorem claimC8 :
    ∀ (grid : Grid) (rows cols : Int) (e : Edge),
      e ∈ (generateNavMesh grid rows cols).edges →
      hasLineOfSight
          (wpPos ((generateNavMesh grid rows cols).waypoints.getD e.fromId ⟨0, 0, 0⟩))
          (wpPos ((generateNavMesh grid rows cols).waypoints.getD e.toId ⟨0, 0, 0⟩))
          grid = true ∧
        edgeCost e ≤ 15 ∧
        edgeCost e =
          distance
            (wpPos ((generateNavMesh grid rows cols).waypoints.getD e.fromId ⟨0, 0, 0⟩))
            (wpPos ((generateNavMesh grid rows cols).waypoints.getD e.toId ⟨0, 0, 0⟩)) := by
  intro grid rows cols e he
  have h := @navEdges_mem
    (latticeWaypoints grid rows cols (cornerWaypoints grid rows cols)) grid e he
  refine ⟨h.1, ?_, ?_⟩
  · rw [edgeCost]
    have h225 : ((e.costSq : ℝ)) ≤ 225 := by exact_mod_cast h.2.2
    have : Real.sqrt ((e.costSq : ℝ)) ≤ Real.sqrt 225 :=
      Real.sqrt_le_sqrt h225
    rwa [show (225 : ℝ) = 15 ^ 2 by norm_num,
      Real.sqrt_sq (by norm_num : (0 : ℝ) ≤ 15)] at this
  · rw [edgeCost, h.2.1]
    exact edgeCost_eq_distance _ _

/-- The 8 × 8 empty grid whose navmesh has four lattice waypoints. -/
def grid8 : Grid := emptyGrid 8 8

/-- Witness for claim C8: the first edge of the navmesh built on the 8 × 8
empty grid satisfies the three guarantees. -/
theorem claimC8_witness :
    ({ fromId := 0, toId := 1, costSq := 25 } : Edge) ∈
        (generateNavMesh grid8 8 8).edges ∧
      (hasLineOfSight
          (wpPos ((generateNavMesh grid8 8 8).waypoints.getD 0 ⟨0, 0, 0⟩))
          (wpPos ((generateNavMesh grid8 8 8).waypoints.getD 1 ⟨0, 0, 0⟩))
          grid8 = true ∧
        edgeCost { fromId := 0, toId := 1, costSq := 25 } ≤ 15 ∧
        edgeCost { fromId := 0, toId := 1, costSq := 25 } =
          distance
            (wpPos ((generateNavMesh grid8 8 8).waypoints.getD 0 ⟨0, 0, 0⟩))
            (wpPos ((generateNavMesh grid8 8 8).waypoints.getD 1 ⟨0, 0, 0⟩))) := by
  have hmem : ({ fromId := 0, toId := 1, costSq := 25 } : Edge) ∈
      (generateNavMesh grid8 8 8).edges := by decide
  exact ⟨hmem, claimC8 grid8 8 8 { fromId := 0, toId := 1, costSq := 25 } hmem⟩

/-! Claim C7: the funnel smoother. -/

/-- As long as the running best stays behind the scan index, the scan never
returns less than its running best. -/
theorem scanFar_ge (p : List Pos) (grid : Grid) (c : Nat) :
    ∀ (fuel i best : Nat), best < i → best ≤ scanFar p grid c fuel i best := by
  intro fuel
  induction fuel with
  | zero => intro i best _; exact Nat.le_refl best
  | succ n ih =>
    intro i best hbi
    rw [scanFar]
    by_cases h1 : i < p.length
    · rw [if_pos h1]
      by_cases h2 : hasLineOfSight (p.getD c ⟨0, 0⟩) (p.getD i ⟨0, 0⟩) grid = true
      · rw [if_pos h2]
        have := ih (i + 1) i (Nat.lt_succ_self i)
        omega
      · rw [if_neg h2]
    · rw [if_neg h1]

/-- The scan stays below the path length if its running best does. -/
theorem scanFar_lt (p : List Pos) (grid : Grid) (c : Nat) :
    ∀ (fuel i best : Nat), best < p.length →
      scanFar p grid c fuel i best < p.length := by
  intro fuel
  induction fuel with
  | zero => intro i best h; exact h
  | succ n ih =>
    intro i best h
    rw [scanFar]
    by_cases h1 : i < p.length
    · rw [if_pos h1]
      by_cases h2 : hasLineOfSight (p.getD c ⟨0, 0⟩) (p.getD i ⟨0, 0⟩) grid = true
      · rw [if_pos h2]
        exact ih (i + 1) i h1
      · rw [if_neg h2]; exact h
    · rw [if_neg h1]; exact h

/-- The anchors chosen by the funnel loop increase strictly. -/
theorem funnelIdx_chain (p : List Pos) (grid : Grid) :
    ∀ (fuel c : Nat), List.Chain' (· < ·) (c :: funnelIdx p grid fuel c) := by
  intro fuel
  induction fuel with
  | zero => intro c; simp [funnelIdx]
  | succ n ih =>
    intro c
    rw [funnelIdx]
    by_cases h1 : c < p.length - 1
    · rw [if_pos h1]
      rw [List.chain'_cons]
      refine ⟨?_, ih _⟩
      have := scanFar_ge p grid c p.length (c + 2) (c + 1) (by omega)
      omega
    · rw [if_neg h1]
      simp

/-- Every anchor is a valid input index. -/
theorem funnelIdx_lt (p : List Pos) (grid : Grid) :
    ∀ (fuel c : Nat), ∀ x ∈ funnelIdx p grid fuel c, x < p.length := by
  intro fuel
  induction fuel with
  | zero => intro c x hx; simp [funnelIdx] at hx
  | succ n ih =>
    intro c x hx
    rw [funnelIdx] at hx
    by_cases h1 : c < p.length - 1
    · rw [if_pos h1] at hx
      have hfv : scanFar p grid c p.length (c + 2) (c + 1) < p.length :=
        scanFar_lt p grid c p.length (c + 2) (c + 1) (by omega)
      rcases List.mem_cons.mp hx with hx1 | hx1
      · rw [hx1]; exact hfv
      · exact ih _ x hx1
    · rw [if_neg h1] at hx
      simp at hx

/-- With enough fuel the funnel loop ends exactly at the last input index. -/
theorem funnelIdx_last (p : List Pos) (grid : Grid) :
    ∀ (fuel c : Nat), c < p.length → p.length - 1 - c ≤ fuel →
      (c :: funnelIdx p grid fuel c).getLast? = some (p.length - 1) := by
  intro fuel
  induction fuel with
  | zero =>
    intro c hc hfuel
    rw [funnelIdx]
    simp only [List.getLast?_singleton]
    have hc1 : c = p.length - 1 := by omega
    rw [hc1]
  | succ n ih =>
    intro c hc hfuel
    rw [funnelIdx]
    by_cases h1 : c < p.length - 1
    · rw [if_pos h1]
      have hge := scanFar_ge p grid c p.length (c + 2) (c + 1) (by omega)
      have hlt := scanFar_lt p grid c p.length (c + 2) (c + 1) (by omega)
      rw [List.getLast?_cons_cons]
      exact ih _ hlt (by omega)
    · rw [if_neg h1]
      simp only [List.getLast?_singleton]
      have hc1 : c = p.length - 1 := by omega
      rw [hc1]

/-- The anchors satisfy the greedy scan relation: each one is the farthest
index still visible from its predecessor, the scan stopping at the first
index that loses visibility (this is what `scanFar` computes). -/
theorem funnelIdx_mech (p : List Pos) (grid : Grid) :
    ∀ (fuel c : Nat),
      List.Chain' (fun a b => b = scanFar p grid a p.length (a + 2) (a + 1))
        (c :: funnelIdx p grid fuel c) := by
  intro fuel
  induction fuel with
  | zero => intro c; simp [funnelIdx]
  | succ n ih =>
    intro c
    rw [funnelIdx]
    by_cases h1 : c < p.length - 1
    · rw [if_pos h1]
      rw [List.chain'_cons]
      exact ⟨rfl, ih _⟩
    · rw [if_neg h1]
      simp

/-- A strictly increasing list of indices below `n` has at most `n`
elements. -/
theorem length_le_of_chain_lt (n : Nat) :
    ∀ (is : List Nat), List.Chain' (· < ·) is → (∀ x ∈ is, x < n) →
      is.length ≤ n := by
  intro is hch hb
  have hpw : is.Pairwise (· < ·) := List.chain'_iff_pairwise.mp hch
  have hnd : is.Nodup := hpw.imp Nat.ne_of_lt
  have hcard : is.length = is.toFinset.card :=
    (List.toFinset_card_of_nodup hnd).symm
  rw [hcard, ← Finset.card_range n]
  refine Finset.card_le_card ?_
  intro x hx
  rw [List.mem_toFinset] at hx
  rw [Finset.mem_range]
  exact hb x hx

/-- Reading every index in order reproduces the list. -/
theorem map_getD_range (p : List Pos) (d : Pos) :
    (List.range p.length).map (fun i => p.getD i d) = p := by
  apply List.ext_getElem
  · simp
  · intro i h1 h2
    simp [List.getD_eq_getElem?_getD, List.getElem?_eq_getElem h2]

/-- Claim C7: the funnel smoother returns the input points at a strictly
increasing list of valid input indices; its last element is the input's last
element; its length is at most the input's length; and past the trivial
cases every consecutive pair of chosen indices is related by the greedy
farthest-still-visible scan, which stops at the first index that loses
visibility. -/
theorem claimC7 :
    ∀ (p : List Pos) (grid : Grid), p ≠ [] →
      ∃ is : List Nat,
        List.Chain' (· < ·) is ∧
        (∀ x ∈ is, x < p.length) ∧
        funnelAlgorithm p grid = is.map (fun i => p.getD i ⟨0, 0⟩) ∧
        (funnelAlgorithm p grid).getLast? = p.getLast? ∧
        (funnelAlgorithm p grid).length ≤ p.length ∧
        (2 < p.length →
          List.Chain' (fun a b => b = scanFar p grid a p.length (a + 2) (a + 1))
            is) := by
  intro p grid hne
  by_cases hlen : p.length ≤ 2
  · refine ⟨List.range p.length, ?_, ?_, ?_, ?_, ?_, ?_⟩
    · exact List.chain'_iff_pairwise.mpr (List.pairwise_lt_range p.length)
    · intro x hx; exact List.mem_range.mp hx
    · rw [funnelAlgorithm, if_pos hlen, map_getD_range]
    · rw [funnelAlgorithm, if_pos hlen]
    · rw [funnelAlgorithm, if_pos hlen]
    · intro h; omega
  · push_neg at hlen
    have hlen0 : 0 < p.length := by omega
    refine ⟨0 :: funnelIdx p grid p.length 0, ?_, ?_, ?_, ?_, ?_, ?_⟩
    · exact funnelIdx_chain p grid p.length 0
    · intro x hx
      rcases List.mem_cons.mp hx with hx1 | hx1
      · omega
      · exact funnelIdx_lt p grid p.length 0 x hx1
    · rw [funnelAlgorithm, if_neg (by omega)]
    · rw [funnelAlgorithm, if_neg (by omega)]
      rw [List.getLast?_map]
      rw [funnelIdx_last p grid p.length 0 hlen0 (by omega)]
      have hplast : p.getLast? = some (p.getD (p.length - 1) ⟨0, 0⟩) := by
        rw [List.getLast?_eq_getElem?]
        rw [List.getD_eq_getElem?_getD]
        rw [List.getElem?_eq_getElem (by omega)]
        rfl
      rw [hplast]
      rfl
    · rw [funnelAlgorithm, if_neg (by omega)]
      rw [List.length_map]
      refine length_le_of_chain_lt p.length _ (funnelIdx_chain p grid p.length 0)
        ?_
      intro x hx
      rcases List.mem_cons.mp hx with hx1 | hx1
      · omega
      · exact funnelIdx_lt p grid p.length 0 x hx1
    · intro _
      exact funnelIdx_mech p grid p.length 0

/-- A 1 × 4 empty grid and a four-point path for the funnel witness. -/
def grid14 : Grid := emptyGrid 1 4

/-- The four-point input path of the funnel witness. -/
def path4 : List Pos := [⟨0, 0⟩, ⟨0, 1⟩, ⟨0, 2⟩, ⟨0, 3⟩]

/-- Witness for claim C7: on a concrete four-point path with full
visibility the funnel keeps only the two endpoints, and the theorem's
guarantees hold for it. -/
theorem claimC7_witness :
    path4 ≠ [] ∧
    funnelAlgorithm path4 grid14 = [⟨0, 0⟩, ⟨0, 3⟩] ∧
    (∃ is : List Nat,
      List.Chain' (· < ·) is ∧
      (∀ x ∈ is, x < path4.length) ∧
      funnelAlgorithm path4 grid14 = is.map (fun i => path4.getD i ⟨0, 0⟩) ∧
      (funnelAlgorithm path4 grid14).getLast? = path4.getLast? ∧
      (funnelAlgorithm path4 grid14).length ≤ path4.length ∧
      (2 < path4.length →
        List.Chain'
          (fun a b => b = scanFar path4 grid14 a path4.length (a + 2) (a + 1))
          is)) :=
  ⟨by decide, by decide, claimC7 path4 grid14 (by decide)⟩


/-- Rectangular grid: every row has the length of the first. -/
def rectGrid (grid : Grid) : Prop :=
  ∀ row ∈ grid, (row.length : Int) = gridCols grid

instance (grid : Grid) : Decidable (rectGrid grid) := by
  unfold rectGrid; infer_instance

theorem obstacleAt_inBounds {grid : Grid} {r c : Int}
    (hrect : rectGrid grid) (hr0 : 0 ≤ r) (hr1 : r < (grid.length : Int))
    (hc0 : 0 ≤ c) (hc1 : c < gridCols grid) (o : Bool) :
    obstacleAt grid r c o = isObstacle grid r c := by
  have hrn : r.toNat < grid.length := by omega
  have hrow : grid.getD r.toNat [] ∈ grid := by
    rw [List.getD_eq_getElem?_getD, List.getElem?_eq_getElem hrn]
    exact List.getElem_mem hrn
  have hlen : ((grid.getD r.toNat []).length : Int) = gridCols grid :=
    hrect _ hrow
  have hcn : c.toNat < (grid.getD r.toNat []).length := by omega
  simp only [obstacleAt, isObstacle]
  rw [if_pos ⟨hr0, hrn⟩, if_pos ⟨hc0, hcn⟩, if_pos ⟨hr0, hrn⟩, if_pos ⟨hc0, hcn⟩]




theorem losAux_oob_aux (grid : Grid) (hrect : rectGrid grid) (o1 o2 : Bool)
    (X0 Y0 X1 Y1 dx dy sx sy : Int)
    (hdx : X0 + sx * dx = X1) (hdx0 : 0 ≤ dx)
    (hdy : Y0 + sy * dy = Y1) (hdy0 : 0 ≤ dy)
    (hsx : sx = 1 ∨ sx = -1) (hsy : sy = 1 ∨ sy = -1)
    (hX0a : 0 ≤ X0) (hX0b : X0 < gridCols grid)
    (hX1a : 0 ≤ X1) (hX1b : X1 < gridCols grid)
    (hY0a : 0 ≤ Y0) (hY0b : Y0 < (grid.length : Int))
    (hY1a : 0 ≤ Y1) (hY1b : Y1 < (grid.length : Int)) :
    ∀ (fuel : Nat) (i j : Int), 0 ≤ i → i ≤ dx → 0 ≤ j → j ≤ dy →
      losAux grid o1 X1 Y1 dx dy sx sy fuel (X0 + sx * i) (Y0 + sy * j)
          (dx - dy - i * dy + j * dx) =
        losAux grid o2 X1 Y1 dx dy sx sy fuel (X0 + sx * i) (Y0 + sy * j)
          (dx - dy - i * dy + j * dx) := by
  have hxran : ∀ i : Int, 0 ≤ i → i ≤ dx →
      0 ≤ X0 + sx * i ∧ X0 + sx * i < gridCols grid := by
    rcases hsx with h | h <;> subst h <;> intro i h1 h2 <;> constructor <;> omega
  have hyran : ∀ j : Int, 0 ≤ j → j ≤ dy →
      0 ≤ Y0 + sy * j ∧ Y0 + sy * j < (grid.length : Int) := by
    rcases hsy with h | h <;> subst h <;> intro j h1 h2 <;> constructor <;> omega
  have hxiff : ∀ i : Int, X0 + sx * i = X1 ↔ i = dx := by
    rcases hsx with h | h <;> subst h <;> intro i <;> omega
  have hyiff : ∀ j : Int, Y0 + sy * j = Y1 ↔ j = dy := by
    rcases hsy with h | h <;> subst h <;> intro j <;> omega
  intro fuel
  induction fuel with
  | zero => intro i j _ _ _ _; rfl
  | succ n ih =>
    intro i j hi0 hidx hj0 hjdy
    simp only [losAux]
    have hx := hxran i hi0 hidx
    have hy := hyran j hj0 hjdy
    rw [obstacleAt_inBounds hrect hy.1 hy.2 hx.1 hx.2 o1,
        obstacleAt_inBounds hrect hy.1 hy.2 hx.1 hx.2 o2]
    by_cases hob : isObstacle grid (Y0 + sy * j) (X0 + sx * i) = true
    · rw [if_pos hob, if_pos hob]
    · rw [if_neg hob, if_neg hob]
      by_cases hend : X0 + sx * i = X1 ∧ Y0 + sy * j = Y1
      · rw [if_pos hend, if_pos hend]
      · rw [if_neg hend, if_neg hend]
        have hnotboth : ¬(i = dx ∧ j = dy) := by
          rintro ⟨h1, h2⟩
          exact hend ⟨(hxiff i).mpr h1, (hyiff j).mpr h2⟩
        by_cases hxm : 2 * (dx - dy - i * dy + j * dx) > -dy
        · have hilt : i < dx := by
            by_contra hc
            have hieq : i = dx := le_antisymm hidx (not_lt.mp hc)
            have hjlt : j < dy := lt_of_le_of_ne hjdy fun hj => hnotboth ⟨hieq, hj⟩
            rw [hieq] at hxm
            have hp := mul_nonneg hdx0 (show (0:ℤ) ≤ dy - 1 - j by omega)
            nlinarith [hp, hxm]
          by_cases hym : 2 * (dx - dy - i * dy + j * dx) < dx
          · have hjlt : j < dy := by
              by_contra hc
              have hjeq : j = dy := le_antisymm hjdy (not_lt.mp hc)
              have hilt2 : i < dx := lt_of_le_of_ne hidx fun hi => hnotboth ⟨hi, hjeq⟩
              rw [hjeq] at hym
              have hp := mul_nonneg hdy0 (show (0:ℤ) ≤ dx - 1 - i by omega)
              nlinarith [hp, hym]
            simp only [if_pos hxm, if_pos hym]
            have h := ih (i + 1) (j + 1) (by omega) (by omega) (by omega) (by omega)
            rw [show X0 + sx * (i + 1) = X0 + sx * i + sx from by ring,
                show Y0 + sy * (j + 1) = Y0 + sy * j + sy from by ring,
                show dx - dy - (i + 1) * dy + (j + 1) * dx =
                  dx - dy - i * dy + j * dx - dy + dx from by ring] at h
            exact h
          · simp only [if_pos hxm, if_neg hym]
            have h := ih (i + 1) j (by omega) (by omega) hj0 hjdy
            rw [show X0 + sx * (i + 1) = X0 + sx * i + sx from by ring,
                show dx - dy - (i + 1) * dy + j * dx =
                  dx - dy - i * dy + j * dx - dy from by ring] at h
            exact h
        · by_cases hym : 2 * (dx - dy - i * dy + j * dx) < dx
          · have hjlt : j < dy := by
              by_contra hc
              have hjeq : j = dy := le_antisymm hjdy (not_lt.mp hc)
              have hilt2 : i < dx := lt_of_le_of_ne hidx fun hi => hnotboth ⟨hi, hjeq⟩
              rw [hjeq] at hym
              have hp := mul_nonneg hdy0 (show (0:ℤ) ≤ dx - 1 - i by omega)
              nlinarith [hp, hym]
            simp only [if_neg hxm, if_pos hym]
            have h := ih i (j + 1) hi0 hidx (by omega) (by omega)
            rw [show Y0 + sy * (j + 1) = Y0 + sy * j + sy from by ring,
                show dx - dy - i * dy + (j + 1) * dx =
                  dx - dy - i * dy + j * dx + dx from by ring] at h
            exact h
          · simp only [if_neg hxm, if_neg hym]
            exact ih i j hi0 hidx hj0 hjdy

theorem lineOfSightP_oob (grid : Grid) (hrect : rectGrid grid) (a b : Pos)
    (ha : inBounds (grid.length : Int) (gridCols grid) a)
    (hb : inBounds (grid.length : Int) (gridCols grid) b) (o1 o2 : Bool) :
    lineOfSightP o1 a b grid = lineOfSightP o2 a b grid := by
  obtain ⟨ha1, ha2, ha3, ha4⟩ := ha
  obtain ⟨hb1, hb2, hb3, hb4⟩ := hb
  have hsx : (if a.col < b.col then (1:ℤ) else -1) = 1 ∨
      (if a.col < b.col then (1:ℤ) else -1) = -1 := by
    split
    · exact Or.inl rfl
    · exact Or.inr rfl
  have hsy : (if a.row < b.row then (1:ℤ) else -1) = 1 ∨
      (if a.row < b.row then (1:ℤ) else -1) = -1 := by
    split
    · exact Or.inl rfl
    · exact Or.inr rfl
  have hdx : a.col + (if a.col < b.col then (1:ℤ) else -1) * |b.col - a.col| = b.col := by
    split
    · rw [abs_of_nonneg (by omega)]; ring
    · rename_i h
      rw [abs_of_nonpos (by omega)]; ring
  have hdy : a.row + (if a.row < b.row then (1:ℤ) else -1) * |b.row - a.row| = b.row := by
    split
    · rw [abs_of_nonneg (by omega)]; ring
    · rename_i h
      rw [abs_of_nonpos (by omega)]; ring
  have h := losAux_oob_aux grid hrect o1 o2 a.col a.row b.col b.row
    |b.col - a.col| |b.row - a.row|
    (if a.col < b.col then (1:ℤ) else -1) (if a.row < b.row then (1:ℤ) else -1)
    hdx (abs_nonneg _) hdy (abs_nonneg _) hsx hsy
    ha3 ha4 hb3 hb4 ha1 ha2 hb1 hb2
    ((|b.col - a.col|).toNat + (|b.row - a.row|).toNat + 1)
    0 0 le_rfl (abs_nonneg _) le_rfl (abs_nonneg _)
  simp only [mul_zero, add_zero, zero_mul, sub_zero] at h
  simp only [lineOfSightP]
  exact h




theorem lerpCoord_bounds (a b : Int) (s i : Nat) (hi : i ≤ s) :
    min a b ≤ lerpCoord a b s i ∧ lerpCoord a b s i ≤ max a b := by
  rcases Nat.eq_zero_or_pos s with hs | hs
  · subst hs
    rw [lerpCoord, if_pos rfl]
    exact ⟨min_le_left a b, le_max_left a b⟩
  · rw [lerpCoord, if_neg (Nat.pos_iff_ne_zero.mp hs)]
    have hS : (1 : ℤ) ≤ (s : ℤ) := by exact_mod_cast hs
    have hI0 : (0 : ℤ) ≤ (i : ℤ) := Int.natCast_nonneg i
    have hIS : (i : ℤ) ≤ (s : ℤ) := by exact_mod_cast hi
    have hd : (0 : ℤ) < 2 * (s : ℤ) := by omega
    constructor
    · rw [Int.le_ediv_iff_mul_le hd]
      rcases le_total a b with hab | hab
      · rw [min_eq_left hab]
        nlinarith [mul_nonneg (sub_nonneg.mpr hab) hI0]
      · rw [min_eq_right hab]
        nlinarith [mul_le_mul_of_nonpos_left hIS (sub_nonpos.mpr hab)]
    · have h2 : 2 * (a * (s : ℤ) + (b - a) * (i : ℤ)) + (s : ℤ) <
          (max a b + 1) * (2 * (s : ℤ)) := by
        rcases le_total a b with hab | hab
        · rw [max_eq_right hab]
          nlinarith [mul_le_mul_of_nonneg_left hIS (sub_nonneg.mpr hab)]
        · rw [max_eq_left hab]
          nlinarith [mul_nonpos_of_nonpos_of_nonneg (sub_nonpos.mpr hab) hI0]
      have := (Int.ediv_lt_iff_lt_mul hd).mpr h2
      omega

theorem list_any_eq {α : Type} (l : List α) (f g : α → Bool)
    (h : ∀ x ∈ l, f x = g x) : l.any f = l.any g := by
  induction l with
  | nil => rfl
  | cons x xs ih =>
    simp only [List.any_cons]
    rw [h x (List.mem_cons_self x xs), ih fun y hy => h y (List.mem_cons_of_mem x hy)]

theorem pathCrossesObstacleP_oob (grid : Grid) (hrect : rectGrid grid) (a b : Pos)
    (ha : inBounds (grid.length : Int) (gridCols grid) a)
    (hb : inBounds (grid.length : Int) (gridCols grid) b) (o1 o2 : Bool) :
    pathCrossesObstacleP o1 a b grid = pathCrossesObstacleP o2 a b grid := by
  obtain ⟨ha1, ha2, ha3, ha4⟩ := ha
  obtain ⟨hb1, hb2, hb3, hb4⟩ := hb
  simp only [pathCrossesObstacleP]
  apply list_any_eq
  intro k hk
  have hks : k ≤ lerpSteps a b := by
    have := List.mem_range.mp hk
    omega
  have hrow := lerpCoord_bounds a.row b.row (lerpSteps a b) k hks
  have hcol := lerpCoord_bounds a.col b.col (lerpSteps a b) k hks
  have hr0 : 0 ≤ lerpCoord a.row b.row (lerpSteps a b) k := by
    have := hrow.1
    rcases le_total a.row b.row with h | h
    · rw [min_eq_left h] at this; omega
    · rw [min_eq_right h] at this; omega
  have hr1 : lerpCoord a.row b.row (lerpSteps a b) k < (grid.length : Int) := by
    have := hrow.2
    rcases le_total a.row b.row with h | h
    · rw [max_eq_right h] at this; omega
    · rw [max_eq_left h] at this; omega
  have hc0 : 0 ≤ lerpCoord a.col b.col (lerpSteps a b) k := by
    have := hcol.1
    rcases le_total a.col b.col with h | h
    · rw [min_eq_left h] at this; omega
    · rw [min_eq_right h] at this; omega
  have hc1 : lerpCoord a.col b.col (lerpSteps a b) k < gridCols grid := by
    have := hcol.2
    rcases le_total a.col b.col with h | h
    · rw [max_eq_right h] at this; omega
    · rw [max_eq_left h] at this; omega
  show obstacleAt grid (lerpCell a b (lerpSteps a b) k).row
      (lerpCell a b (lerpSteps a b) k).col o1 =
    obstacleAt grid (lerpCell a b (lerpSteps a b) k).row
      (lerpCell a b (lerpSteps a b) k).col o2
  simp only [lerpCell]
  rw [obstacleAt_inBounds hrect hr0 hr1 hc0 hc1 o1,
      obstacleAt_inBounds hrect hr0 hr1 hc0 hc1 o2]




/-- **C10.**  For in-bounds endpoints on a rectangular grid, every cell read by
the Theta* line-of-sight Bresenham scan (`lineOfSight`) and by the RRT segment
rasterization (`pathCrossesObstacle`) stays within the grid: the value
substituted for an out-of-bounds `grid[row][col]` read never influences the
result, i.e. the out-of-bounds branch of the total embedding is unreachable. -/
theorem claimC10 (grid : Grid) (a b : Pos) (hrect : rectGrid grid)
    (ha : inBounds (grid.length : Int) (gridCols grid) a)
    (hb : inBounds (grid.length : Int) (gridCols grid) b) (o1 o2 : Bool) :
    lineOfSightP o1 a b grid = lineOfSightP o2 a b grid ∧
      pathCrossesObstacleP o1 a b grid = pathCrossesObstacleP o2 a b grid :=
  ⟨lineOfSightP_oob grid hrect a b ha hb o1 o2,
   pathCrossesObstacleP_oob grid hrect a b ha hb o1 o2⟩

/-- Witness for C10 on a concrete 3x3 grid with an obstacle. -/
theorem claimC10_witness :
    rectGrid [[false, false, false], [false, true, false], [false, false, false]] ∧
      inBounds 3 3 ⟨0, 0⟩ ∧ inBounds 3 3 ⟨2, 2⟩ ∧
      (lineOfSightP true ⟨0, 0⟩ ⟨2, 2⟩
          [[false, false, false], [false, true, false], [false, false, false]] =
        lineOfSightP false ⟨0, 0⟩ ⟨2, 2⟩
          [[false, false, false], [false, true, false], [false, false, false]] ∧
        pathCrossesObstacleP true ⟨0, 0⟩ ⟨2, 2⟩
          [[false, false, false], [false, true, false], [false, false, false]] =
        pathCrossesObstacleP false ⟨0, 0⟩ ⟨2, 2⟩
          [[false, false, false], [false, true, false], [false, false, false]]) :=
  ⟨by decide, by decide, by decide,
   claimC10 [[false, false, false], [false, true, false], [false, false, false]]
     ⟨0, 0⟩ ⟨2, 2⟩ (by decide) (by decide) (by decide) true false⟩


end Pathfinding
